import Mathlib

/-!
Verification of the indicator/analysis engines of the auto-technical-analysis
repository (src/ichimoku.py, src/rsi.py, src/fractals.py, src/ma_cross.py).

Shallow embedding conventions:
* prices and indicator values are exact rationals (`ℚ`);
* a pandas series is a `List (Option ℚ)`, where `none` models a missing
  value (`NaN`); raw data columns are plain `List ℚ`;
* pandas rolling windows use `min_periods = window` (the default), so an
  aggregate is defined exactly when the window holds `window` non-missing
  values;
* comparisons against `NaN` are `false`, mirroring IEEE semantics used by
  numpy/pandas;
* a Python `None` produced by an explicit guard is modelled by an outer
  `Option` layer where it matters (Ichimoku current-cloud values).
-/

/-- Scalar maximum as Python's `max(a, b)`: returns `b` if `b > a` else `a`.
For non-NaN rationals this is the usual maximum. -/
def qmax (a b : ℚ) : ℚ := if a ≤ b then b else a

/-- Scalar minimum, Python `min`. -/
def qmin (a b : ℚ) : ℚ := if b ≤ a then b else a

/-- Addition on possibly-missing values: `NaN` propagates. -/
def oAdd : Option ℚ → Option ℚ → Option ℚ
  | some a, some b => some (a + b)
  | _, _ => none

/-- Subtraction on possibly-missing values: `NaN` propagates. -/
def oSub : Option ℚ → Option ℚ → Option ℚ
  | some a, some b => some (a - b)
  | _, _ => none

/-- Strict greater-than on possibly-missing values: any comparison with
`NaN` is false (IEEE semantics, as numpy/pandas evaluate `x > y`). -/
def oGt : Option ℚ → Option ℚ → Bool
  | some a, some b => decide (b < a)
  | _, _ => false

/-- Strict less-than on possibly-missing values; `NaN` compares false. -/
def oLt : Option ℚ → Option ℚ → Bool
  | some a, some b => decide (a < b)
  | _, _ => false

/-- Python `max` on two possibly-NaN floats: `b if b > a else a`. -/
def pyMax (a b : Option ℚ) : Option ℚ := if oGt b a then b else a

/-- Python `min` on two possibly-NaN floats: `b if b < a else a`. -/
def pyMin (a b : Option ℚ) : Option ℚ := if oLt b a then b else a

/-- Trailing window of width `w` ending at position `i` (pandas
`rolling(window=w)`): the slice of positions `max 0 (i+1-w) … i`. -/
def windowT (xs : List (Option ℚ)) (w i : ℕ) : List (Option ℚ) :=
  (xs.take (i + 1)).drop (i + 1 - w)

/-- Centered window of width `w` at position `i` (pandas
`rolling(window=w, center=True)`): positions `i - off … i + (w - off) - 1`
with `off = (w-1)/2`, clipped to the series. -/
def windowC (xs : List (Option ℚ)) (w i : ℕ) : List (Option ℚ) :=
  (xs.take (i + (w - (w - 1) / 2))).drop (i - (w - 1) / 2)

/-- Windowed maximum with `min_periods = w`: defined only when the window
contributes exactly `w` non-missing values. -/
def aggMax (w : ℕ) (v : List ℚ) : Option ℚ :=
  match v with
  | [] => none
  | h :: t => if (h :: t).length = w then some (t.foldl qmax h) else none

/-- Windowed minimum with `min_periods = w`. -/
def aggMin (w : ℕ) (v : List ℚ) : Option ℚ :=
  match v with
  | [] => none
  | h :: t => if (h :: t).length = w then some (t.foldl qmin h) else none

/-- Windowed mean with `min_periods = w`. -/
def aggMean (w : ℕ) (v : List ℚ) : Option ℚ :=
  if v.length = w ∧ 1 ≤ w then some (v.sum / (w : ℚ)) else none

/-- `series.rolling(window=w).max()`. -/
def rollingMax (w : ℕ) (xs : List (Option ℚ)) : List (Option ℚ) :=
  (List.range xs.length).map fun i => aggMax w ((windowT xs w i).filterMap id)

/-- `series.rolling(window=w).min()`. -/
def rollingMin (w : ℕ) (xs : List (Option ℚ)) : List (Option ℚ) :=
  (List.range xs.length).map fun i => aggMin w ((windowT xs w i).filterMap id)

/-- `series.rolling(window=w).mean()`. -/
def rollingMean (w : ℕ) (xs : List (Option ℚ)) : List (Option ℚ) :=
  (List.range xs.length).map fun i => aggMean w ((windowT xs w i).filterMap id)

/-- `series.rolling(window=w, center=True).max()`. -/
def rollingMaxC (w : ℕ) (xs : List (Option ℚ)) : List (Option ℚ) :=
  (List.range xs.length).map fun i => aggMax w ((windowC xs w i).filterMap id)

/-- `series.rolling(window=w, center=True).min()`. -/
def rollingMinC (w : ℕ) (xs : List (Option ℚ)) : List (Option ℚ) :=
  (List.range xs.length).map fun i => aggMin w ((windowC xs w i).filterMap id)

/-- Tail of `series.ewm(alpha=a, adjust=False).mean()` given the previous
output value `p`: `out[i] = (1-a)*p + a*x`. -/
def ewmAux (a : ℚ) : List ℚ → ℚ → List ℚ
  | [], _ => []
  | x :: xs, p => ((1 - a) * p + a * x) :: ewmAux a xs ((1 - a) * p + a * x)

/-- `series.ewm(alpha=a, adjust=False).mean()` over a NaN-free series:
seeded with the first value. -/
def ewmMean (a : ℚ) : List ℚ → List ℚ
  | [] => []
  | x :: xs => x :: ewmAux a xs x

/-- `series.diff()`: first position is `NaN`, then successive differences. -/
def seriesDiff (xs : List ℚ) : List (Option ℚ) :=
  match xs with
  | [] => []
  | _ :: _ => none :: (xs.zip xs.tail).map fun p => some (p.2 - p.1)

/-- Elementwise `(a + b) / 2` of two aligned series (division by the
scalar literal 2, as the Ichimoku lines are formed). -/
def seriesAvg2 (a b : List (Option ℚ)) : List (Option ℚ) :=
  (List.range (min a.length b.length)).map fun i =>
    (oAdd (a.getD i none) (b.getD i none)).map (· / 2)

/-- The shared OHLCV bar frame.  `extra` holds derived columns written back
into the frame (`df[name] = series`); it is empty as ingested. -/
structure DataFrame where
  timestamp : List ℚ
  open_ : List ℚ
  high : List ℚ
  low : List ℚ
  close : List ℚ
  volume : List ℚ
  extra : List (String × List (Option ℚ)) := []
deriving DecidableEq

/-- Number of rows, `len(df)`. -/
def DataFrame.nrows (df : DataFrame) : ℕ := df.close.length

/-- Column assignment `df[k] = v`: replace an existing derived column or
append a new one. -/
def DataFrame.setCol (df : DataFrame) (k : String) (v : List (Option ℚ)) : DataFrame :=
  { df with extra :=
      if df.extra.any (fun p => p.1 = k) then
        df.extra.map (fun p => if p.1 = k then (k, v) else p)
      else df.extra ++ [(k, v)] }

/-- Derived-column lookup `df[k]`. -/
def DataFrame.getCol (df : DataFrame) (k : String) : List (Option ℚ) :=
  ((df.extra.find? (fun p => p.1 = k)).map Prod.snd).getD []

/-- The closed set of signal tags the engines emit. -/
inductive Signal where
  | BULLISH | BEARISH | NEUTRAL
  | OVERBOUGHT | OVERSOLD
  | RISING | FALLING
  | BREAKOUT | BREAKDOWN | RANGE
  | UPTREND | DOWNTREND | MIXED
  | ABOVE_BOTH | BELOW_BOTH | BETWEEN
  | STRONG_BULLISH | STRONG_BEARISH | BULLISH_BIAS | BEARISH_BIAS
deriving DecidableEq

/-! ## Ichimoku engine (src/ichimoku.py) -/

/-- State computed by `Ichimoku.__init__`/`calculate` (periods kept,
derived series cached; the frame itself is not written to). -/
structure IchimokuState where
  df : DataFrame
  tenkan_period : ℕ
  kijun_period : ℕ
  senkou_b_period : ℕ
  displacement : ℕ
  tenkan : List (Option ℚ)
  kijun : List (Option ℚ)
  senkou_span_a : List (Option ℚ)
  senkou_span_b : List (Option ℚ)

/-- `Ichimoku.calculate`: tenkan/kijun are midpoints of trailing high-max
and low-min; span A is the tenkan/kijun midpoint; span B the midpoint over
the `senkou_b` period. -/
def Ichimoku.calculate (df : DataFrame) (tenkan_period kijun_period senkou_b_period displacement : ℕ) :
    IchimokuState :=
  let tenkan := seriesAvg2 (rollingMax tenkan_period (df.high.map some))
                           (rollingMin tenkan_period (df.low.map some))
  let kijun := seriesAvg2 (rollingMax kijun_period (df.high.map some))
                          (rollingMin kijun_period (df.low.map some))
  { df := df
    tenkan_period := tenkan_period, kijun_period := kijun_period
    senkou_b_period := senkou_b_period, displacement := displacement
    tenkan := tenkan, kijun := kijun
    senkou_span_a := seriesAvg2 tenkan kijun
    senkou_span_b := seriesAvg2 (rollingMax senkou_b_period (df.high.map some))
                                (rollingMin senkou_b_period (df.low.map some)) }

/-- Values returned by `Ichimoku.get_current_values`.  The current-cloud
fields carry an outer `Option`: `none` is the Python `None` produced by the
length guard, while the inner layer is the (possibly NaN) series value. -/
structure IchimokuValues where
  tenkan : Option ℚ
  kijun : Option ℚ
  current_span_a : Option (Option ℚ)
  current_span_b : Option (Option ℚ)
  future_span_a : Option ℚ
  future_span_b : Option ℚ

/-- Position read by `iloc[-d]` on a series of length `n` (Python negative
indexing; `-0` is position `0`). -/
def pyNegIdx (n d : ℕ) : ℕ := if d = 0 then 0 else n - d

/-- `Ichimoku.get_current_values`: last value of each line, plus the spans
read `displacement` bars back guarded by `len(series) > displacement`
(otherwise `None`).  `iloc[-1]` on an empty frame raises, modelled as an
error. -/
def Ichimoku.get_current_values (st : IchimokuState) : Except String IchimokuValues :=
  match st.tenkan.getLast?, st.kijun.getLast?, st.senkou_span_a.getLast?, st.senkou_span_b.getLast? with
  | some t, some k, some fa, some fb =>
      .ok { tenkan := t, kijun := k
            current_span_a :=
              if st.displacement < st.senkou_span_a.length then
                some (st.senkou_span_a.getD (pyNegIdx st.senkou_span_a.length st.displacement) none)
              else none
            current_span_b :=
              if st.displacement < st.senkou_span_b.length then
                some (st.senkou_span_b.getD (pyNegIdx st.senkou_span_b.length st.displacement) none)
              else none
            future_span_a := fa, future_span_b := fb }
  | _, _, _, _ => .error "IndexError: single positional indexer is out-of-bounds"

/-- The three Ichimoku signals derived by `Ichimoku.analyze`. -/
structure IchimokuAnalysis where
  price_vs_cloud : Signal
  future_cloud : Signal
  tk_cross : Signal
deriving DecidableEq

/-- `Ichimoku.analyze`: compares price against the current cloud formed by
`max`/`min` of the two current spans.  When the current spans are the
guard's `None`, Python's `max(None, None)` raises `TypeError`; modelled as
an error. -/
def Ichimoku.analyze (st : IchimokuState) (current_price : ℚ) :
    Except String (IchimokuValues × IchimokuAnalysis) := do
  let values ← Ichimoku.get_current_values st
  match values.current_span_a, values.current_span_b with
  | some sa, some sb =>
      let cloud_top := pyMax sa sb
      let cloud_bottom := pyMin sa sb
      .ok (values,
        { price_vs_cloud :=
            if oGt (some current_price) cloud_top then .BULLISH
            else if oLt (some current_price) cloud_bottom then .BEARISH
            else .NEUTRAL
          future_cloud := if oGt values.future_span_a values.future_span_b then .BULLISH else .BEARISH
          tk_cross := if oGt values.tenkan values.kijun then .BULLISH else .BEARISH })
  | _, _ => .error "TypeError: NoneType is not orderable"

/-! ## RSI engine (src/rsi.py)

The raw RSI uses Wilder smoothing (`ewm(alpha=1/length, adjust=False)`)
of the gain/loss series.  `delta.where(delta > 0, 0)` sends the leading
`NaN` of `diff()` to `0` (a `NaN > 0` comparison is false), so the
gain/loss series are NaN-free.  `rs = avg_gain / avg_loss` follows IEEE
float arithmetic: with `avg_loss = 0` and `avg_gain > 0` the quotient is
`+inf` and `100 - 100/(1+inf) = 100`; with both averages `0` the quotient
is `NaN` and so is the RSI. -/

/-- Gain series `delta.where(delta > 0, 0)`. -/
def gainsOf (delta : List (Option ℚ)) : List ℚ :=
  delta.map fun d => match d with
    | some x => if 0 < x then x else 0
    | none => 0

/-- Loss series `-delta.where(delta < 0, 0)`. -/
def lossesOf (delta : List (Option ℚ)) : List ℚ :=
  delta.map fun d => match d with
    | some x => if x < 0 then -x else 0
    | none => 0

/-- `RSI.calculate`'s raw RSI series (`self.rsi`). -/
def RSI.rsi (closes : List ℚ) (length : ℕ) : List (Option ℚ) :=
  let delta := seriesDiff closes
  let avg_gains := ewmMean (1 / (length : ℚ)) (gainsOf delta)
  let avg_losses := ewmMean (1 / (length : ℚ)) (lossesOf delta)
  (List.range closes.length).map fun i =>
    let g := avg_gains.getD i 0
    let l := avg_losses.getD i 0
    if l = 0 then (if g = 0 then none else some 100)
    else some (100 - 100 / (1 + g / l))

/-- `self.smoothed_rsi` with the default configuration used throughout the
repository (`smoothing_type='SMA'`, `smoothing_length`): a trailing SMA
pass over the raw RSI. -/
def RSI.smoothed_rsi (closes : List ℚ) (length smoothing_length : ℕ) : List (Option ℚ) :=
  rollingMean smoothing_length (RSI.rsi closes length)

/-- Result dictionary of `RSI.get_divergence`. -/
structure Divergence where
  bullish_divergence : Bool
  bearish_divergence : Bool
  description : String
deriving DecidableEq

/-- `series.iloc[-k:]` (for `k = 0`, `iloc[-0:]` is the whole series). -/
def recentSlice (s : List (Option ℚ)) (k : ℕ) : List (Option ℚ) :=
  if k = 0 then s else s.drop (s.length - k)

/-- Local extrema points `(position, value)` of
`s[s.rolling(w, center=True).max() == s].dropna()`: a point is a peak iff
its value equals the centered rolling maximum there (so positions where
the rolling maximum is `NaN` are never peaks).  Positions are relative to
the slice; both price and RSI slices share the same offset, so nearest
lookups are unaffected. -/
def peakPoints (s : List (Option ℚ)) (w : ℕ) : List (ℕ × ℚ) :=
  (List.range s.length).filterMap fun i =>
    match s.getD i none, (rollingMaxC w s).getD i none with
    | some v, some m => if v = m then some (i, v) else none
    | _, _ => none

/-- Trough points, via the centered rolling minimum. -/
def troughPoints (s : List (Option ℚ)) (w : ℕ) : List (ℕ × ℚ) :=
  (List.range s.length).filterMap fun i =>
    match s.getD i none, (rollingMinC w s).getD i none with
    | some v, some m => if v = m then some (i, v) else none
    | _, _ => none

/-- Value of the extremum whose position is nearest to `t`: least
distance, ties resolved to the larger position.  This is the intended
nearest lookup (what `.iloc[index.get_loc(t, method='nearest')]` would
fetch); the source's plain subscript of the `get_loc` result is instead
label-based and raises — see `seriesGetItemInt`, `nearestPos` and
`RSI.get_divergence_src` below. -/
def nearestVal (points : List (ℕ × ℚ)) (t : ℕ) : Option ℚ :=
  (points.foldl (fun acc p =>
    match acc with
    | none => some p
    | some q => if max p.1 t - min p.1 t ≤ max q.1 t - min q.1 t then some p else some q) none).map Prod.snd

/-- The two most recent extrema `(index[-1], index[-2])` of a series of
points, when at least two exist. -/
def lastTwo (l : List (ℕ × ℚ)) : Option ((ℕ × ℚ) × (ℕ × ℚ)) :=
  match l.getLast?, l.dropLast.getLast? with
  | some a, some b => some (a, b)
  | _, _ => none

/-- Bearish branch of `RSI.get_divergence`: at least two peaks in both
series, the two most recent price peaks strictly increasing, and the RSI
peaks nearest to those price-peak positions strictly decreasing. -/
def bearishCheck (price_peaks rsi_peaks : List (ℕ × ℚ)) : Bool :=
  if 2 ≤ price_peaks.length ∧ 2 ≤ rsi_peaks.length then
    match lastTwo price_peaks with
    | some (lastP, prevP) =>
        match nearestVal rsi_peaks lastP.1, nearestVal rsi_peaks prevP.1 with
        | some lastR, some prevR => decide (prevP.2 < lastP.2) && decide (lastR < prevR)
        | _, _ => false
    | none => false
  else false

/-- Bullish branch of `RSI.get_divergence`: lower lows in price, higher
lows in RSI, on the trough series. -/
def bullishCheck (price_troughs rsi_troughs : List (ℕ × ℚ)) : Bool :=
  if 2 ≤ price_troughs.length ∧ 2 ≤ rsi_troughs.length then
    match lastTwo price_troughs with
    | some (lastP, prevP) =>
        match nearestVal rsi_troughs lastP.1, nearestVal rsi_troughs prevP.1 with
        | some lastR, some prevR => decide (lastP.2 < prevP.2) && decide (prevR < lastR)
        | _, _ => false
    | none => false
  else false

/-- `RSI.get_divergence(lookback, peak_window)` as a function of the close
series and the cached `smoothed_rsi` series: `None` below `lookback` rows,
then the bearish check (early return), the bullish check, and the default
no-divergence dictionary.  This returned-value model reproduces the
source exactly on every path that does not reach the RSI peak lookup —
fewer than `lookback` rows, or the branch guards failing; on paths that
do reach the lookup the source raises, which `RSI.get_divergence_src`
below models (and `get_divergence_src_agrees` relates the two). -/
def RSI.get_divergence (closes : List ℚ) (smoothed : List (Option ℚ)) (lookback peak_window : ℕ) :
    Option Divergence :=
  if closes.length < lookback then none
  else if bearishCheck (peakPoints (recentSlice (closes.map some) lookback) peak_window)
                       (peakPoints (recentSlice smoothed lookback) peak_window) then
    some ⟨false, true, "Bearish divergence: Price making higher highs, RSI making lower highs"⟩
  else if bullishCheck (troughPoints (recentSlice (closes.map some) lookback) peak_window)
                       (troughPoints (recentSlice smoothed lookback) peak_window) then
    some ⟨true, false, "Bullish divergence: Price making lower lows, RSI making higher lows"⟩
  else some ⟨false, false, "No divergence detected"⟩

/-- `rsi.get_divergence()` at the defaults used by `main.py`
(`length=14`, SMA smoothing of length 14, `lookback=30`, `peak_window=5`). -/
def RSI.divergenceDefault (closes : List ℚ) : Option Divergence :=
  RSI.get_divergence closes (RSI.smoothed_rsi closes 14 14) 30 5

/-- Price peaks examined by the default divergence scan. -/
def pricePeaksOf (closes : List ℚ) : List (ℕ × ℚ) :=
  peakPoints (recentSlice (closes.map some) 30) 5

/-- Price troughs examined by the default divergence scan. -/
def priceTroughsOf (closes : List ℚ) : List (ℕ × ℚ) :=
  troughPoints (recentSlice (closes.map some) 30) 5

/-- Smoothed-RSI peaks examined by the default divergence scan. -/
def rsiPeaksOf (closes : List ℚ) : List (ℕ × ℚ) :=
  peakPoints (recentSlice (RSI.smoothed_rsi closes 14 14) 30) 5

/-- Smoothed-RSI troughs examined by the default divergence scan. -/
def rsiTroughsOf (closes : List ℚ) : List (ℕ × ℚ) :=
  troughPoints (recentSlice (RSI.smoothed_rsi closes 14 14) 30) 5

/-! ## Williams Fractals engine (src/fractals.py) -/

/-- Fractal flag column: `np.where(x == x.rolling(2n+1, center=True).agg, x, nan)`
specialised to the maximum (up fractals over `high`). -/
def fractalUpCol (high : List ℚ) (w : ℕ) : List (Option ℚ) :=
  (List.range high.length).map fun i =>
    match (rollingMaxC w (high.map some)).getD i none with
    | some m => if high.getD i 0 = m then some (high.getD i 0) else none
    | none => none

/-- Down-fractal flag column over `low`, via the centered rolling minimum. -/
def fractalDownCol (low : List ℚ) (w : ℕ) : List (Option ℚ) :=
  (List.range low.length).map fun i =>
    match (rollingMinC w (low.map some)).getD i none with
    | some m => if low.getD i 0 = m then some (low.getD i 0) else none
    | none => none

/-- State computed by `WilliamsFractals.__init__`/`calculate`.  Note that
`calculate` stores the fractal columns INTO the shared frame
(`self.df['fractal_up'] = …`). -/
structure WilliamsFractalsState where
  df : DataFrame
  period : ℕ
  last_up_fractal : Option ℚ
  last_down_fractal : Option ℚ
  recent_up_fractals : List ℚ
  recent_down_fractals : List ℚ

/-- `WilliamsFractals.calculate`: writes the `fractal_up`/`fractal_down`
columns into the frame, then extracts the last non-missing fractal of each
kind (`dropna().iloc[-1]`, or `None`) and the 5 most recent of each
(`dropna().tail(5)`). -/
def WilliamsFractals.calculate (df : DataFrame) (period : ℕ) : WilliamsFractalsState :=
  let up := fractalUpCol df.high (2 * period + 1)
  let down := fractalDownCol df.low (2 * period + 1)
  let df' := (df.setCol "fractal_up" up).setCol "fractal_down" down
  let upsD := up.filterMap id
  let downsD := down.filterMap id
  { df := df', period := period
    last_up_fractal := upsD.getLast?
    last_down_fractal := downsD.getLast?
    recent_up_fractals := upsD.drop (upsD.length - 5)
    recent_down_fractals := downsD.drop (downsD.length - 5) }

/-- Python truthiness of an optional float: `None` and `0.0` are falsy. -/
def truthy : Option ℚ → Bool
  | none => false
  | some x => decide (x ≠ 0)

/-- One scan step of the backward fractal walk: `'up'` wins over `'down'`
when a bar is flagged both ways. -/
def fractalToken (up down : List (Option ℚ)) (i : ℕ) : Option String :=
  match up.getD i none with
  | some _ => some "up"
  | none =>
      match down.getD i none with
      | some _ => some "down"
      | none => none

/-- Index order of the source scan `for i in range(1, len(df)): idx = -i`,
i.e. positions `n-1, n-2, …, 1` (the earliest row is never visited). -/
def scanIdxSource (n : ℕ) : List ℕ := (List.range' 1 (n - 1)).reverse

/-- Index order described by the specification: start at the bar before
the most recent one and walk back to the earliest row, positions
`n-2, …, 0`. -/
def scanIdxSpec (n : ℕ) : List ℕ := (List.range' 0 (n - 1)).reverse

/-- Collect the first 10 fractal tokens along the given index order. -/
def collectTokens (up down : List (Option ℚ)) (idxs : List ℕ) : List String :=
  (idxs.filterMap (fractalToken up down)).take 10

/-- Pad a token list to exactly 10 entries with `'none'`. -/
def padTokens (t : List String) : List String :=
  t ++ List.replicate (10 - t.length) "none"

/-- The `recent_fractal_sequence` computed by `WilliamsFractals.analyze`
(step 4 of the source), reading the fractal columns back out of the frame. -/
def recentFractalSequence (st : WilliamsFractalsState) : List String :=
  padTokens (collectTokens (st.df.getCol "fractal_up") (st.df.getCol "fractal_down")
    (scanIdxSource st.df.nrows))

/-- The dominance verdict over a token list: strict majority or no call. -/
def dominanceOf (tokens : List String) : String :=
  let up_count := tokens.count "up"
  let down_count := tokens.count "down"
  if down_count < up_count then "UP fractals dominate recent price action"
  else if up_count < down_count then "DOWN fractals dominate recent price action"
  else "No clear dominance in recent fractals"

/-- Analysis results of `WilliamsFractals.analyze`; sections guarded by a
failing condition in the source are `none`. -/
structure FractalAnalysis where
  position : Option Signal
  fractal_trend : Option Signal
  distances : Option (ℚ × ℚ)
  recent_fractal_sequence : List String
  dominance : String

/-- `WilliamsFractals.analyze`: the support/resistance section and the
distance section are both guarded by Python truthiness of the last up and
down fractal values (`if values['last_up_fractal'] and
values['last_down_fractal']`), so a legitimate fractal at price `0.0` is
treated as absent. -/
def WilliamsFractals.analyze (st : WilliamsFractalsState) (current_price : ℚ) : FractalAnalysis :=
  let position :=
    match st.last_up_fractal, st.last_down_fractal with
    | some u, some d =>
        if u ≠ 0 ∧ d ≠ 0 then
          some (if u < current_price then Signal.BREAKOUT
                else if current_price < d then Signal.BREAKDOWN
                else Signal.RANGE)
        else none
    | _, _ => none
  let fractal_trend :=
    if 2 ≤ st.recent_up_fractals.length ∧ 2 ≤ st.recent_down_fractals.length then
      let up_trend := st.recent_up_fractals.getD 0 0 < st.recent_up_fractals.getD (st.recent_up_fractals.length - 1) 0
      let down_trend := st.recent_down_fractals.getD 0 0 < st.recent_down_fractals.getD (st.recent_down_fractals.length - 1) 0
      some (if up_trend ∧ down_trend then Signal.UPTREND
            else if ¬up_trend ∧ ¬down_trend then Signal.DOWNTREND
            else Signal.MIXED)
    else none
  let distances :=
    match st.last_up_fractal, st.last_down_fractal with
    | some u, some d =>
        if u ≠ 0 ∧ d ≠ 0 then
          some (((u - current_price) / current_price) * 100,
                ((current_price - d) / current_price) * 100)
        else none
    | _, _ => none
  let seq := recentFractalSequence st
  { position := position, fractal_trend := fractal_trend, distances := distances
    recent_fractal_sequence := seq
    dominance := dominanceOf seq }

/-! ## MA Cross engine (src/ma_cross.py) -/

inductive MAType where
  | SMA | EMA
deriving DecidableEq

/-- State computed by `MACross.__init__`/`calculate`: the three moving
averages over `close` (`fast_periods[0]`, `slow_periods[0]`,
`slow_periods[1]`), as trailing SMA or span-based EMA. -/
structure MACrossState where
  df : DataFrame
  fast_ma_period : ℕ
  slow_ma_period : ℕ
  long_ma_period : ℕ
  ma_type : MAType
  ma_fast : List (Option ℚ)
  ma_slow : List (Option ℚ)
  ma_long : List (Option ℚ)

/-- `MACross.calculate`.  The constructor performs no validation of the
periods; any natural-number periods are accepted. -/
def MACross.calculate (df : DataFrame) (fast slow long : ℕ) (t : MAType) : MACrossState :=
  match t with
  | .SMA =>
      { df := df, fast_ma_period := fast, slow_ma_period := slow, long_ma_period := long
        ma_type := t
        ma_fast := rollingMean fast (df.close.map some)
        ma_slow := rollingMean slow (df.close.map some)
        ma_long := rollingMean long (df.close.map some) }
  | .EMA =>
      { df := df, fast_ma_period := fast, slow_ma_period := slow, long_ma_period := long
        ma_type := t
        ma_fast := (ewmMean (2 / ((fast : ℚ) + 1)) df.close).map some
        ma_slow := (ewmMean (2 / ((slow : ℚ) + 1)) df.close).map some
        ma_long := (ewmMean (2 / ((long : ℚ) + 1)) df.close).map some }

/-- `MACross.get_current_values`: the last value of each MA series;
`iloc[-1]` raises on an empty frame. -/
def MACross.get_current_values (st : MACrossState) :
    Except String (Option ℚ × Option ℚ × Option ℚ) :=
  match st.ma_fast.getLast?, st.ma_slow.getLast?, st.ma_long.getLast? with
  | some f, some s, some l => .ok (f, s, l)
  | _, _, _ => .error "IndexError: single positional indexer is out-of-bounds"

/-- Result of `MACross._analyze_ma_set` for one MA pair. -/
structure MASetResult where
  cross_status : Signal
  price_position : Signal
  distances : Option ℚ × Option ℚ
deriving DecidableEq

/-- `MACross._analyze_ma_set`: cross status (strict), price position
relative to both MAs, and percentage distances `((price - ma)/price)*100`.
A zero price divides numpy float64 scalars, yielding inf or NaN with a
runtime warning rather than raising; the model marks that corner with an
error value as a conservative boundary — no theorem below depends on this
branch. -/
def MACross.analyze_ma_set (price : ℚ) (fast_ma slow_ma : Option ℚ) :
    Except String MASetResult :=
  if price = 0 then .error "ZeroDivisionError: float division by zero"
  else .ok
    { cross_status := if oGt fast_ma slow_ma then .BULLISH else .BEARISH
      price_position :=
        if oLt fast_ma (some price) && oLt slow_ma (some price) then .ABOVE_BOTH
        else if oGt fast_ma (some price) && oGt slow_ma (some price) then .BELOW_BOTH
        else .BETWEEN
      distances := ((oSub (some price) fast_ma).map (fun d => d / price * 100),
                    (oSub (some price) slow_ma).map (fun d => d / price * 100)) }

/-- Percentage difference `((a - b)/b)*100` of two possibly-NaN values.
A NaN denominator yields NaN.  A zero denominator in the source divides
numpy float64 scalars, yielding inf or NaN with a runtime warning rather
than raising; the model marks that corner with an error value as a
conservative boundary — no theorem below depends on this branch (the
market-structure theorems assume nonzero denominators). -/
def pctDiff (a b : Option ℚ) : Except String (Option ℚ) :=
  match b with
  | some y =>
      if y = 0 then .error "ZeroDivisionError: float division by zero"
      else .ok (a.map fun x => (x - y) / y * 100)
  | none => .ok none

/-- Signed indicator used by the market-structure score:
`1 if diff > 0 else -1` (so a `NaN` difference scores `-1`). -/
def signOf (d : Option ℚ) : ℚ := if oGt d (some 0) then 1 else -1

/-- `MACross._analyze_market_structure`: three percentage differences,
signed, combined with weights 0.3 / 0.3 / 0.4; `score > 0.5` strong
bullish, `score < -0.5` strong bearish, `score > 0` bullish bias, else
(including 0) bearish bias. -/
def MACross.analyze_market_structure (price : ℚ) (ma_fast ma_slow ma_long : Option ℚ) :
    Except String Signal := do
  let ma_fast_slow_diff ← pctDiff ma_fast ma_slow
  let ma_slow_long_diff ← pctDiff ma_slow ma_long
  let price_ma_long_diff ← pctDiff (some price) ma_long
  let weighted_score : ℚ :=
    3 / 10 * signOf ma_fast_slow_diff + 3 / 10 * signOf ma_slow_long_diff
      + 4 / 10 * signOf price_ma_long_diff
  .ok (if 1 / 2 < weighted_score then .STRONG_BULLISH
       else if weighted_score < -(1 / 2) then .STRONG_BEARISH
       else if 0 < weighted_score then .BULLISH_BIAS
       else .BEARISH_BIAS)

/-- Analysis dictionary of `MACross.analyze`. -/
structure MACrossAnalysis where
  set1_short_term : MASetResult
  set2_long_term : MASetResult
  market_structure : Signal
deriving DecidableEq

/-- `MACross.analyze`: per-pair analysis of (fast, slow) and (slow, long),
then the overall market structure. -/
def MACross.analyze (st : MACrossState) (current_price : ℚ) :
    Except String ((Option ℚ × Option ℚ × Option ℚ) × MACrossAnalysis) := do
  let values ← MACross.get_current_values st
  let set1 ← MACross.analyze_ma_set current_price values.1 values.2.1
  let set2 ← MACross.analyze_ma_set current_price values.2.1 values.2.2
  let ms ← MACross.analyze_market_structure current_price values.1 values.2.1 values.2.2
  .ok (values, { set1_short_term := set1, set2_long_term := set2, market_structure := ms })

/-- Boolean comparison series `fast > slow`, aligned elementwise
(`NaN` comparisons are false). -/
def aboveSeries (a b : List (Option ℚ)) : List Bool :=
  (List.range (min a.length b.length)).map fun i => oGt (a.getD i none) (b.getD i none)

/-- `bool_series.diff()`: `NaN` at position 0; on boolean dtype pandas
applies `operator.xor` rather than subtraction, so each later position
holds the exclusive-or of the value with its predecessor — a flag for any
flip, never a signed difference. -/
def boolDiff (bs : List Bool) : List (Option Bool) :=
  (List.range bs.length).map fun i =>
    match i with
    | 0 => none
    | j + 1 => some (bs.getD (j + 1) false != bs.getD j false)

/-- Start of the trailing window selected by `iloc[-lookback:]` on a
series of `n` rows (`lookback = 0` selects the whole series). -/
def windowStart (n lookback : ℕ) : ℕ := if lookback = 0 then 0 else n - lookback

/-- Python equality between a boolean and an integer literal, as evaluated
by the `recent_crosses == 1` / `== -1` selections: `True == 1` and
`False == 0` hold, everything else is false. -/
def boolIntEq (b : Bool) (v : ℤ) : Bool := decide ((if b then (1 : ℤ) else 0) = v)

/-- Row labels of the entries of the trailing `lookback` window of the
xor-diff series that compare equal to the integer `v` (the
`recent[recent == v]` selection keeps original labels; a `NaN` entry never
compares equal). -/
def selectIdx (diffs : List (Option Bool)) (lookback : ℕ) (v : ℤ) : List ℕ :=
  (List.range diffs.length).filter fun i =>
    decide (windowStart diffs.length lookback ≤ i) &&
      (match diffs.getD i none with
       | some b => boolIntEq b v
       | none => false)

/-- Cross events reported for one MA pair. -/
structure CrossPair where
  last_golden_cross : Option ℕ
  last_death_cross : Option ℕ
deriving DecidableEq

/-- `MACross.get_cross_history(lookback)`: most recent diff entry
comparing equal to `1` (reported as the golden cross) and to `-1`
(reported as the death cross) of each pair's boolean comparison series
within the trailing window, or `None`.  Since the boolean diff is an
exclusive-or, `== 1` matches every flip and `== -1` matches nothing. -/
def MACross.get_cross_history (st : MACrossState) (lookback : ℕ) : CrossPair × CrossPair :=
  let d_fs := boolDiff (aboveSeries st.ma_fast st.ma_slow)
  let d_sl := boolDiff (aboveSeries st.ma_slow st.ma_long)
  (⟨(selectIdx d_fs lookback 1).getLast?, (selectIdx d_fs lookback (-1)).getLast?⟩,
   ⟨(selectIdx d_sl lookback 1).getLast?, (selectIdx d_sl lookback (-1)).getLast?⟩)

/-! ## Basic indexing lemmas -/

/-- Index into a `range`-indexed pointwise definition. -/
theorem get?_range_map {α : Type} (f : ℕ → α) {n i : ℕ} (h : i < n) :
    ((List.range n).map f).get? i = some (f i) := by
  rw [List.get?_eq_getElem?]
  simp [List.getElem?_map, List.getElem?_range, h]

/-- `getD` version of `get?_range_map`. -/
theorem getD_range_map {α : Type} (f : ℕ → α) (d : α) {n i : ℕ} (h : i < n) :
    ((List.range n).map f).getD i d = f i := by
  rw [List.getD_eq_getElem?_getD]
  simp [List.getElem?_map, List.getElem?_range, h]

/-- Out-of-range `getD`. -/
theorem getD_range_map_oob {α : Type} (f : ℕ → α) (d : α) {n i : ℕ} (h : n ≤ i) :
    ((List.range n).map f).getD i d = d := by
  rw [List.getD_eq_getElem?_getD]
  rw [List.getElem?_eq_none (by simpa using h)]
  rfl

theorem length_rollingMax (w : ℕ) (xs : List (Option ℚ)) : (rollingMax w xs).length = xs.length := by
  simp [rollingMax]

theorem length_rollingMin (w : ℕ) (xs : List (Option ℚ)) : (rollingMin w xs).length = xs.length := by
  simp [rollingMin]

theorem length_rollingMean (w : ℕ) (xs : List (Option ℚ)) : (rollingMean w xs).length = xs.length := by
  simp [rollingMean]

/-- A window of fewer than `w` non-missing values has no maximum. -/
theorem aggMax_of_lt {w : ℕ} {v : List ℚ} (h : v.length < w) : aggMax w v = none := by
  cases v with
  | nil => rfl
  | cons a t => simp only [aggMax]; rw [if_neg]; omega

theorem aggMin_of_lt {w : ℕ} {v : List ℚ} (h : v.length < w) : aggMin w v = none := by
  cases v with
  | nil => rfl
  | cons a t => simp only [aggMin]; rw [if_neg]; omega

theorem aggMean_of_lt {w : ℕ} {v : List ℚ} (h : v.length < w) : aggMean w v = none := by
  simp only [aggMean]; rw [if_neg]; omega

/-- A trailing window at position `i` holds at most `i + 1` values. -/
theorem length_windowT_le (xs : List (Option ℚ)) (w i : ℕ) :
    (windowT xs w i).length ≤ i + 1 := by
  simp [windowT, List.length_drop, List.length_take]

theorem rollingMax_get?_early {w : ℕ} {xs : List (Option ℚ)} {i : ℕ}
    (h : i < xs.length) (hw : i + 1 < w) : (rollingMax w xs).get? i = some none := by
  unfold rollingMax
  rw [get?_range_map _ h]
  exact congrArg some (aggMax_of_lt (lt_of_le_of_lt
    (le_trans (List.length_filterMap_le _ _) (length_windowT_le xs w i)) hw))

theorem rollingMin_get?_early {w : ℕ} {xs : List (Option ℚ)} {i : ℕ}
    (h : i < xs.length) (hw : i + 1 < w) : (rollingMin w xs).get? i = some none := by
  unfold rollingMin
  rw [get?_range_map _ h]
  exact congrArg some (aggMin_of_lt (lt_of_le_of_lt
    (le_trans (List.length_filterMap_le _ _) (length_windowT_le xs w i)) hw))

theorem rollingMean_get?_early {w : ℕ} {xs : List (Option ℚ)} {i : ℕ}
    (h : i < xs.length) (hw : i + 1 < w) : (rollingMean w xs).get? i = some none := by
  unfold rollingMean
  rw [get?_range_map _ h]
  exact congrArg some (aggMean_of_lt (lt_of_le_of_lt
    (le_trans (List.length_filterMap_le _ _) (length_windowT_le xs w i)) hw))

theorem rollingMax_getD_early {w : ℕ} {xs : List (Option ℚ)} {i : ℕ}
    (h : i < xs.length) (hw : i + 1 < w) : (rollingMax w xs).getD i none = none := by
  rw [List.getD_eq_getElem?_getD, ← List.get?_eq_getElem?, rollingMax_get?_early h hw]
  rfl

theorem rollingMin_getD_early {w : ℕ} {xs : List (Option ℚ)} {i : ℕ}
    (h : i < xs.length) (hw : i + 1 < w) : (rollingMin w xs).getD i none = none := by
  rw [List.getD_eq_getElem?_getD, ← List.get?_eq_getElem?, rollingMin_get?_early h hw]
  rfl

theorem rollingMean_getD_early {w : ℕ} {xs : List (Option ℚ)} {i : ℕ}
    (h : i < xs.length) (hw : i + 1 < w) : (rollingMean w xs).getD i none = none := by
  rw [List.getD_eq_getElem?_getD, ← List.get?_eq_getElem?, rollingMean_get?_early h hw]
  rfl

/-- Pointwise view of `seriesAvg2`. -/
theorem seriesAvg2_get? {a b : List (Option ℚ)} {i : ℕ} (ha : i < a.length) (hb : i < b.length) :
    (seriesAvg2 a b).get? i = some ((oAdd (a.getD i none) (b.getD i none)).map (· / 2)) := by
  unfold seriesAvg2
  exact get?_range_map _ (lt_min ha hb)

theorem oAdd_none_left (b : Option ℚ) : oAdd none b = none := by cases b <;> rfl

theorem oAdd_none_right (a : Option ℚ) : oAdd a none = none := by cases a <;> rfl

/-- C5: for every numeric series and trailing window size, each rolling
aggregate (max, min, mean) at a position with fewer than `w` values
available holds the no-value marker; consequently every Ichimoku line and
every SMA-mode moving average holds the no-value marker at each of the
first `w - 1` positions of its window. -/
theorem c5_insufficient_window_no_value :
    (∀ (xs : List (Option ℚ)) (w i : ℕ), i < xs.length → i + 1 < w →
      (rollingMax w xs).get? i = some none ∧ (rollingMin w xs).get? i = some none ∧
      (rollingMean w xs).get? i = some none) ∧
    (∀ (df : DataFrame) (tp kp sp d i : ℕ), i < df.high.length → i < df.low.length →
      ((i + 1 < tp → (Ichimoku.calculate df tp kp sp d).tenkan.get? i = some none) ∧
       (i + 1 < kp → (Ichimoku.calculate df tp kp sp d).kijun.get? i = some none) ∧
       (i + 1 < max tp kp → (Ichimoku.calculate df tp kp sp d).senkou_span_a.get? i = some none) ∧
       (i + 1 < sp → (Ichimoku.calculate df tp kp sp d).senkou_span_b.get? i = some none))) ∧
    (∀ (df : DataFrame) (f s l i : ℕ), i < df.close.length →
      ((i + 1 < f → (MACross.calculate df f s l .SMA).ma_fast.get? i = some none) ∧
       (i + 1 < s → (MACross.calculate df f s l .SMA).ma_slow.get? i = some none) ∧
       (i + 1 < l → (MACross.calculate df f s l .SMA).ma_long.get? i = some none))) := by
  have hhl : ∀ (df : DataFrame), (df.high.map some).length = df.high.length := by simp
  have hll : ∀ (df : DataFrame), (df.low.map some).length = df.low.length := by simp
  have hcl : ∀ (df : DataFrame), (df.close.map some).length = df.close.length := by simp
  refine ⟨fun xs w i h hw => ⟨rollingMax_get?_early h hw, rollingMin_get?_early h hw,
    rollingMean_get?_early h hw⟩, ?_, ?_⟩
  · intro df tp kp sp d i hh hl
    have hmaxlen : ∀ p : ℕ, i < (rollingMax p (df.high.map some)).length := by
      intro p; rw [length_rollingMax, hhl]; exact hh
    have hminlen : ∀ p : ℕ, i < (rollingMin p (df.low.map some)).length := by
      intro p; rw [length_rollingMin, hll]; exact hl
    have htenkan : ∀ p : ℕ, i + 1 < p →
        (seriesAvg2 (rollingMax p (df.high.map some)) (rollingMin p (df.low.map some))).get? i
          = some none := by
      intro p hp
      rw [seriesAvg2_get? (hmaxlen p) (hminlen p)]
      rw [rollingMax_getD_early (by rw [hhl]; exact hh) hp]
      rw [oAdd_none_left]
      rfl
    have hlen2 : ∀ p : ℕ,
        (seriesAvg2 (rollingMax p (df.high.map some)) (rollingMin p (df.low.map some))).length
          = min df.high.length df.low.length := by
      intro p
      simp [seriesAvg2, length_rollingMax, length_rollingMin]
    refine ⟨fun h1 => htenkan tp h1, fun h2 => htenkan kp h2, ?_, fun h4 => htenkan sp h4⟩
    intro h3
    show (seriesAvg2 _ _).get? i = some none
    rw [seriesAvg2_get? (by rw [hlen2]; exact lt_min hh hl) (by rw [hlen2]; exact lt_min hh hl)]
    rcases Nat.lt_or_ge (i + 1) tp with htp | htp
    · have : (seriesAvg2 (rollingMax tp (df.high.map some)) (rollingMin tp (df.low.map some))).getD i none = none := by
        rw [List.getD_eq_getElem?_getD, ← List.get?_eq_getElem?, htenkan tp htp]; rfl
      rw [this, oAdd_none_left]; rfl
    · have hkp : i + 1 < kp := by omega
      have : (seriesAvg2 (rollingMax kp (df.high.map some)) (rollingMin kp (df.low.map some))).getD i none = none := by
        rw [List.getD_eq_getElem?_getD, ← List.get?_eq_getElem?, htenkan kp hkp]; rfl
      rw [this, oAdd_none_right]; rfl
  · intro df f s l i hc
    have hlen : i < (df.close.map some).length := by rw [hcl]; exact hc
    exact ⟨fun h1 => rollingMean_get?_early hlen h1,
           fun h2 => rollingMean_get?_early hlen h2,
           fun h3 => rollingMean_get?_early hlen h3⟩

/-- Concrete instantiation of `c5_insufficient_window_no_value`. -/
theorem c5_witness :
    (rollingMax 3 ([1, 2, 3].map some)).get? 1 = some none ∧
    (Ichimoku.calculate ⟨[1], [1], [1], [1], [1], [1], []⟩ 9 26 52 26).tenkan.get? 0 = some none ∧
    (MACross.calculate ⟨[1], [1], [1], [1], [1], [1], []⟩ 10 50 200 .SMA).ma_fast.get? 0 = some none := by
  refine ⟨?_, ?_, ?_⟩
  · exact (c5_insufficient_window_no_value.1 ([1, 2, 3].map some) 3 1 (by decide) (by decide)).1
  · exact ((c5_insufficient_window_no_value.2.1 ⟨[1], [1], [1], [1], [1], [1], []⟩ 9 26 52 26 0
      (by decide) (by decide)).1 (by decide))
  · exact ((c5_insufficient_window_no_value.2.2 ⟨[1], [1], [1], [1], [1], [1], []⟩ 10 50 200 0
      (by decide)).1 (by decide))

/-! ## C2: engine purity over the shared frame -/

/-- A concrete 5-bar frame with no derived columns. -/
def dfC2 : DataFrame := ⟨[1, 2, 3, 4, 5], [1, 2, 3, 4, 5], [1, 2, 5, 2, 1], [0, 1, 2, 1, 0],
  [1, 2, 3, 4, 5], [0, 0, 0, 0, 0], []⟩

/-- C2 counterexample: the claim that no engine writes derived state into
the shared bar structure is false — `WilliamsFractals.calculate` stores
its `fractal_up`/`fractal_down` columns into the frame it was given, so
the frame after construction differs from the ingested one. -/
theorem c2_counterexample : (WilliamsFractals.calculate dfC2 2).df ≠ dfC2 := by decide

/-- C2 (amended): no engine modifies the OHLCV columns of the shared
frame, and the Ichimoku and MA-cross engines leave the frame untouched;
but the fractal engine does write its two derived columns into the shared
frame (see `c2_counterexample`). -/
theorem c2_amended_ohlcv_preserved :
    (∀ (df : DataFrame) (p : ℕ),
      (WilliamsFractals.calculate df p).df.timestamp = df.timestamp ∧
      (WilliamsFractals.calculate df p).df.open_ = df.open_ ∧
      (WilliamsFractals.calculate df p).df.high = df.high ∧
      (WilliamsFractals.calculate df p).df.low = df.low ∧
      (WilliamsFractals.calculate df p).df.close = df.close ∧
      (WilliamsFractals.calculate df p).df.volume = df.volume) ∧
    (∀ (df : DataFrame) (tp kp sp d : ℕ), (Ichimoku.calculate df tp kp sp d).df = df) ∧
    (∀ (df : DataFrame) (f s l : ℕ) (t : MAType), (MACross.calculate df f s l t).df = df) := by
  refine ⟨fun df p => ?_, fun df tp kp sp d => rfl, fun df f s l t => ?_⟩
  · exact ⟨rfl, rfl, rfl, rfl, rfl, rfl⟩
  · cases t <;> rfl

/-! ## C10: zero-valued fractals are treated as absent -/

theorem oGt_self (x : Option ℚ) : oGt x x = false := by
  cases x with
  | none => rfl
  | some v => simp [oGt]

/-- C10: whenever the most recent up-fractal or down-fractal value is
exactly 0, `WilliamsFractals.analyze` omits the position and distance
sections, because existence is tested by Python numeric truthiness. -/
theorem c10_zero_fractal_truthiness (df : DataFrame) (p : ℕ) (price : ℚ)
    (h : (WilliamsFractals.calculate df p).last_up_fractal = some 0 ∨
         (WilliamsFractals.calculate df p).last_down_fractal = some 0) :
    (WilliamsFractals.analyze (WilliamsFractals.calculate df p) price).position = none ∧
    (WilliamsFractals.analyze (WilliamsFractals.calculate df p) price).distances = none := by
  rcases h with h | h
  · cases hld : (WilliamsFractals.calculate df p).last_down_fractal with
    | none => constructor <;> simp [WilliamsFractals.analyze, h, hld]
    | some d => constructor <;> simp [WilliamsFractals.analyze, h, hld]
  · cases hlu : (WilliamsFractals.calculate df p).last_up_fractal with
    | none => constructor <;> simp [WilliamsFractals.analyze, h, hlu]
    | some u => constructor <;> simp [WilliamsFractals.analyze, h, hlu]

/-- Frame whose only up fractal is at price 0. -/
def dfC10 : DataFrame := ⟨[1, 2, 3, 4, 5], [1, 2, 3, 4, 5], [-1, -2, 0, -2, -1],
  [-3, -4, -2, -4, -3], [1, 2, 3, 4, 5], [0, 0, 0, 0, 0], []⟩

/-- Concrete instantiation of `c10_zero_fractal_truthiness`: the frame
`dfC10` has an up fractal of value 0, and the position and distance
sections are dropped. -/
theorem c10_witness :
    (WilliamsFractals.analyze (WilliamsFractals.calculate dfC10 2) 100).position = none ∧
    (WilliamsFractals.analyze (WilliamsFractals.calculate dfC10 2) 100).distances = none :=
  c10_zero_fractal_truthiness dfC10 2 100 (Or.inl (by decide))

/-! ## C9: no configuration validation at construction -/

/-- A tiny 3-bar frame. -/
def dfC9 : DataFrame := ⟨[1, 2, 3], [1, 2, 3], [2, 3, 4], [0, 1, 2], [1, 2, 3], [0, 0, 0], []⟩

/-- C9 counterexample: an invalid configuration with
`fast_ma_period = slow_ma_period = 50` (so `fast ≥ slow`) is NOT rejected:
construction succeeds and the full analysis runs to a normal result, so
the claimed construction-time configuration error does not exist. -/
theorem c9_counterexample :
    (MACross.analyze (MACross.calculate dfC9 50 50 200 .SMA) 100).isOk = true := by decide

/-- C9 (amended): the constructors perform no configuration validation.
With `fast = slow` the engine simply computes two identical MA series and
its per-set analysis reports a BEARISH cross status (since `fast > slow`
is false on equal values); no configuration error is produced. -/
theorem c9_amended_no_validation :
    (∀ (df : DataFrame) (p l : ℕ) (t : MAType),
      (MACross.calculate df p p l t).ma_fast = (MACross.calculate df p p l t).ma_slow) ∧
    (∀ (price : ℚ) (x : Option ℚ) (r : MASetResult),
      MACross.analyze_ma_set price x x = .ok r → r.cross_status = Signal.BEARISH) := by
  constructor
  · intro df p l t; cases t <;> rfl
  · intro price x r h
    unfold MACross.analyze_ma_set at h
    split at h
    · cases h
    · cases h
      simp [oGt_self]

/-- Concrete instantiation of `c9_amended_no_validation`. -/
theorem c9_witness :
    MACross.analyze_ma_set 1 none none
        = .ok ⟨Signal.BEARISH, Signal.BETWEEN, (none, none)⟩ ∧
    (⟨Signal.BEARISH, Signal.BETWEEN, (none, none)⟩ : MASetResult).cross_status
        = Signal.BEARISH :=
  ⟨by rfl, c9_amended_no_validation.2 1 none ⟨Signal.BEARISH, Signal.BETWEEN, (none, none)⟩ (by rfl)⟩

/-! ## C6: market-structure signal -/

/-- Market-structure classifier as the specification words it: three sign
indicators of the raw differences (fast − slow, slow − long,
price − long), each `+1` when strictly positive else `-1`, combined with
weights 0.3/0.3/0.4; `score > 0.5` strong bullish, `score < -0.5` strong
bearish, `score > 0` bullish bias, otherwise (including exactly 0)
bearish bias. -/
def marketStructureSpec (price f s l : ℚ) : Signal :=
  let i1 : ℚ := if 0 < f - s then 1 else -1
  let i2 : ℚ := if 0 < s - l then 1 else -1
  let i3 : ℚ := if 0 < price - l then 1 else -1
  let score := 3 / 10 * i1 + 3 / 10 * i2 + 4 / 10 * i3
  if 1 / 2 < score then .STRONG_BULLISH
  else if score < -(1 / 2) then .STRONG_BEARISH
  else if 0 < score then .BULLISH_BIAS
  else .BEARISH_BIAS

/-- The percentage difference is strictly positive iff the raw difference
is, for a positive denominator. -/
theorem zero_lt_pct {y d : ℚ} (hd : 0 < d) : 0 < y / d * 100 ↔ 0 < y := by
  rw [div_mul_eq_mul_div, div_pos_iff]
  constructor
  · rintro (⟨h, -⟩ | ⟨-, h⟩)
    · nlinarith
    · exact absurd hd (not_lt.mpr h.le)
  · intro h
    exact Or.inl ⟨by nlinarith, hd⟩

/-- C6: for defined MA values with positive slow/long denominators, the
market-structure signal of the source equals the weighted-score
classification over the three difference signs, as the claim states it. -/
theorem c6_market_structure (price f s l : ℚ) (hs : 0 < s) (hl : 0 < l) :
    MACross.analyze_market_structure price (some f) (some s) (some l)
      = .ok (marketStructureSpec price f s l) := by
  have h1 : signOf (some ((f - s) / s * 100)) = (if 0 < f - s then (1 : ℚ) else -1) := by
    simp only [signOf, oGt, decide_eq_true_eq]
    simp only [zero_lt_pct hs]
  have h2 : signOf (some ((s - l) / l * 100)) = (if 0 < s - l then (1 : ℚ) else -1) := by
    simp only [signOf, oGt, decide_eq_true_eq]
    simp only [zero_lt_pct hl]
  have h3 : signOf (some ((price - l) / l * 100)) = (if 0 < price - l then (1 : ℚ) else -1) := by
    simp only [signOf, oGt, decide_eq_true_eq]
    simp only [zero_lt_pct hl]
  simp only [MACross.analyze_market_structure, pctDiff, if_neg (ne_of_gt hs),
    if_neg (ne_of_gt hl), Option.map_some', bind, Except.bind, marketStructureSpec, h1, h2, h3]

/-- Concrete instantiation of `c6_market_structure`. -/
theorem c6_witness :
    MACross.analyze_market_structure 100 (some 3) (some 2) (some 1)
      = .ok (marketStructureSpec 100 3 2 1) :=
  c6_market_structure 100 3 2 1 (by decide) (by decide)

/-! ## C3: Ichimoku on a series no longer than the displacement -/

/-- A concrete 5-bar frame (length ≤ 26). -/
def dfC3 : DataFrame := ⟨[1, 2, 3, 4, 5], [1, 2, 3, 4, 5], [2, 3, 4, 5, 6], [0, 1, 2, 3, 4],
  [1, 2, 3, 4, 5], [0, 0, 0, 0, 0], []⟩

/-- C3 counterexample: on a 5-bar series the engine does return the
no-value markers for the current spans, but `analyze` does NOT produce a
partial result — it fails on `max(None, None)`, so the claim that the
analyze operation proceeds rather than raising is false. -/
theorem c3_counterexample :
    Ichimoku.analyze (Ichimoku.calculate dfC3 9 26 52 26) 100
      = .error "TypeError: NoneType is not orderable" := by rfl

theorem length_seriesAvg2 (a b : List (Option ℚ)) :
    (seriesAvg2 a b).length = min a.length b.length := by
  simp [seriesAvg2]

theorem ichimoku_line_lengths (df : DataFrame) (tp kp sp d : ℕ) :
    (Ichimoku.calculate df tp kp sp d).tenkan.length = min df.high.length df.low.length ∧
    (Ichimoku.calculate df tp kp sp d).kijun.length = min df.high.length df.low.length ∧
    (Ichimoku.calculate df tp kp sp d).senkou_span_a.length = min df.high.length df.low.length ∧
    (Ichimoku.calculate df tp kp sp d).senkou_span_b.length = min df.high.length df.low.length := by
  refine ⟨?_, ?_, ?_, ?_⟩ <;>
    simp [Ichimoku.calculate, length_seriesAvg2, length_rollingMax, length_rollingMin]

/-- Nonempty lists have a last element. -/
theorem getLast?_of_pos {α : Type} (l : List α) (h : 0 < l.length) : ∃ x, l.getLast? = some x := by
  have hne : l ≠ [] := by
    intro hc; rw [hc] at h; simp at h
  exact Option.isSome_iff_exists.mp (List.getLast?_isSome.mpr hne)

/-- C3 (amended): on a nonempty series whose length is at most the
default displacement 26, `get_current_values` does return the distinct
no-value markers for both current spans — but `analyze` then raises on
`max(None, None)` instead of producing a partial result. -/
theorem c3_amended_short_series (df : DataFrame) (price : ℚ)
    (h1 : 1 ≤ min df.high.length df.low.length)
    (h2 : min df.high.length df.low.length ≤ 26) :
    ∃ v : IchimokuValues,
      Ichimoku.get_current_values (Ichimoku.calculate df 9 26 52 26) = .ok v ∧
      v.current_span_a = none ∧ v.current_span_b = none ∧
      Ichimoku.analyze (Ichimoku.calculate df 9 26 52 26) price
        = .error "TypeError: NoneType is not orderable" := by
  obtain ⟨hlt, hlk, hla, hlb⟩ := ichimoku_line_lengths df 9 26 52 26
  obtain ⟨t, ht⟩ := getLast?_of_pos (Ichimoku.calculate df 9 26 52 26).tenkan (by omega)
  obtain ⟨k, hk⟩ := getLast?_of_pos (Ichimoku.calculate df 9 26 52 26).kijun (by omega)
  obtain ⟨fa, hfa⟩ := getLast?_of_pos (Ichimoku.calculate df 9 26 52 26).senkou_span_a (by omega)
  obtain ⟨fb, hfb⟩ := getLast?_of_pos (Ichimoku.calculate df 9 26 52 26).senkou_span_b (by omega)
  have hda : (Ichimoku.calculate df 9 26 52 26).displacement = 26 := rfl
  have hguard_a : ¬ (Ichimoku.calculate df 9 26 52 26).displacement
      < (Ichimoku.calculate df 9 26 52 26).senkou_span_a.length := by
    rw [hda, hla]; omega
  have hguard_b : ¬ (Ichimoku.calculate df 9 26 52 26).displacement
      < (Ichimoku.calculate df 9 26 52 26).senkou_span_b.length := by
    rw [hda, hlb]; omega
  have hv : Ichimoku.get_current_values (Ichimoku.calculate df 9 26 52 26)
      = .ok { tenkan := t, kijun := k, current_span_a := none, current_span_b := none,
              future_span_a := fa, future_span_b := fb } := by
    rw [Ichimoku.get_current_values, ht, hk, hfa, hfb]
    rw [if_neg hguard_a, if_neg hguard_b]
  refine ⟨_, hv, rfl, rfl, ?_⟩
  rw [Ichimoku.analyze]
  rw [hv]
  rfl

/-- Concrete instantiation of `c3_amended_short_series` on the 5-bar
frame `dfC3`. -/
theorem c3_witness :
    ∃ v : IchimokuValues,
      Ichimoku.get_current_values (Ichimoku.calculate dfC3 9 26 52 26) = .ok v ∧
      v.current_span_a = none ∧ v.current_span_b = none ∧
      Ichimoku.analyze (Ichimoku.calculate dfC3 9 26 52 26) 100
        = .error "TypeError: NoneType is not orderable" :=
  c3_amended_short_series dfC3 100 (by decide) (by decide)

/-! ## C7: MA cross history -/

/-- Positions in the trailing window at which the boolean comparison
series flips false→true (a golden cross, as the claim describes it). -/
def upTransitions (above : List Bool) (lookback : ℕ) : List ℕ :=
  (List.range above.length).filter fun i =>
    decide (above.length - lookback ≤ i) &&
      (decide (1 ≤ i) && (above.getD i false && !(above.getD (i - 1) false)))

/-- Positions in the trailing window at which the comparison series flips
true→false (a death cross). -/
def downTransitions (above : List Bool) (lookback : ℕ) : List ℕ :=
  (List.range above.length).filter fun i =>
    decide (above.length - lookback ≤ i) &&
      (decide (1 ≤ i) && (!(above.getD i false) && above.getD (i - 1) false))

theorem length_boolDiff (bs : List Bool) : (boolDiff bs).length = bs.length := by
  simp [boolDiff]

/-- Positions in the trailing window at which the comparison series flips
in either direction. -/
def flipTransitions (above : List Bool) (lookback : ℕ) : List ℕ :=
  (List.range above.length).filter fun i =>
    decide (above.length - lookback ≤ i) &&
      (decide (1 ≤ i) && (above.getD i false != above.getD (i - 1) false))

theorem boolIntEq_one (b : Bool) : boolIntEq b 1 = b := by
  cases b <;> decide

theorem boolIntEq_negone (b : Bool) : boolIntEq b (-1) = false := by
  cases b <;> decide

/-- The `== 1` selection of the xor-diff picks out exactly the flips of
either direction inside the trailing window. -/
theorem selectIdx_one_flips (bs : List Bool) (k : ℕ) (hk : 1 ≤ k) :
    selectIdx (boolDiff bs) k 1 = flipTransitions bs k := by
  unfold selectIdx flipTransitions windowStart
  rw [length_boolDiff, if_neg (by omega)]
  apply List.filter_congr
  intro i hi
  have h := List.mem_range.mp hi
  unfold boolDiff
  rw [getD_range_map _ _ h]
  cases i with
  | zero => simp
  | succ j =>
      simp only [Nat.succ_sub_one, boolIntEq_one]
      simp

/-- The `== -1` selection of the xor-diff never matches: a boolean
compares equal to `-1` for neither value, so the death-cross list is
always empty. -/
theorem selectIdx_negone_nil (bs : List Bool) (k : ℕ) :
    selectIdx (boolDiff bs) k (-1) = [] := by
  unfold selectIdx
  rw [List.filter_eq_nil_iff]
  intro i hi
  have h : i < bs.length := by
    have := List.mem_range.mp hi
    rwa [length_boolDiff] at this
  intro hc
  rw [Bool.and_eq_true] at hc
  have h2 := hc.2
  unfold boolDiff at h2
  rw [getD_range_map _ _ h] at h2
  cases i with
  | zero => simp at h2
  | succ j => simp [boolIntEq_negone] at h2

/-- When no downward flip occurs in the window, every flip is upward. -/
theorem flip_eq_up_of_down_nil (bs : List Bool) (k : ℕ)
    (hd : downTransitions bs k = []) :
    flipTransitions bs k = upTransitions bs k := by
  unfold downTransitions at hd
  rw [List.filter_eq_nil_iff] at hd
  unfold flipTransitions upTransitions
  apply List.filter_congr
  intro i hi
  have hnd := hd i hi
  cases hw : decide (bs.length - k ≤ i) <;>
    cases h1 : decide (1 ≤ i) <;>
      cases ha : bs.getD i false <;>
        cases hb : bs.getD (i - 1) false <;>
          simp_all

/-- A state whose fast/slow comparison series is false, false, false,
true, false, false — as produced, e.g., by closes 1, 1, 9, 9, 1, 1 with
SMA periods 2 and 4 (fast MA: NaN, 1, 5, 9, 5, 1; slow MA: NaN, NaN,
NaN, 5, 5, 5).  The series flips up at position 3 and down at
position 4. -/
def stC7 : MACrossState :=
  { df := dfC9, fast_ma_period := 2, slow_ma_period := 4, long_ma_period := 6
    ma_type := .SMA
    ma_fast := [none, some 1, some 5, some 9, some 5, some 1]
    ma_slow := [none, none, none, some 5, some 5, some 5]
    ma_long := [none, none, none, some 5, some 5, some 5] }

/-- C7 counterexample: the fast/slow series of `stC7` has its most recent
false→true transition at position 3 and a true→false transition at
position 4 inside the window, yet the engine reports position 4 — a
downward flip — as the last golden cross, and no death cross at all:
pandas diffs a boolean series with exclusive-or, so `== 1` matches every
flip and `== -1` never matches. -/
theorem c7_counterexample :
    upTransitions (aboveSeries stC7.ma_fast stC7.ma_slow) 10 = [3] ∧
    downTransitions (aboveSeries stC7.ma_fast stC7.ma_slow) 10 = [4] ∧
    (MACross.get_cross_history stC7 10).1.last_golden_cross = some 4 ∧
    (MACross.get_cross_history stC7 10).1.last_death_cross = none := by
  refine ⟨by decide, by decide, by decide, by decide⟩

/-- C7 (amended): because pandas diffs a boolean series with
exclusive-or, each pair's reported last golden cross is the position of
the most recent flip of the faster-above-slower series in either
direction within the trailing window (a downward cross is also reported
as a golden cross), or the no-value marker if the series never flips
there; the reported last death cross is always the no-value marker.  A
window whose only flip is a single upward cross therefore still reports
that bar's position as the last golden cross and no death cross. -/
theorem c7_amended_cross_history (st : MACrossState) (lookback : ℕ) (hk : 1 ≤ lookback) :
    ((MACross.get_cross_history st lookback).1.last_golden_cross
        = (flipTransitions (aboveSeries st.ma_fast st.ma_slow) lookback).getLast? ∧
     (MACross.get_cross_history st lookback).1.last_death_cross = none ∧
     (MACross.get_cross_history st lookback).2.last_golden_cross
        = (flipTransitions (aboveSeries st.ma_slow st.ma_long) lookback).getLast? ∧
     (MACross.get_cross_history st lookback).2.last_death_cross = none) ∧
    (∀ i : ℕ, upTransitions (aboveSeries st.ma_fast st.ma_slow) lookback = [i] →
       downTransitions (aboveSeries st.ma_fast st.ma_slow) lookback = [] →
       (MACross.get_cross_history st lookback).1.last_golden_cross = some i ∧
       (MACross.get_cross_history st lookback).1.last_death_cross = none) := by
  have hg1 := selectIdx_one_flips (aboveSeries st.ma_fast st.ma_slow) lookback hk
  have hd1 := selectIdx_negone_nil (aboveSeries st.ma_fast st.ma_slow) lookback
  have hg2 := selectIdx_one_flips (aboveSeries st.ma_slow st.ma_long) lookback hk
  have hd2 := selectIdx_negone_nil (aboveSeries st.ma_slow st.ma_long) lookback
  refine ⟨⟨?_, ?_, ?_, ?_⟩, ?_⟩
  · show (selectIdx (boolDiff (aboveSeries st.ma_fast st.ma_slow)) lookback 1).getLast? = _
    rw [hg1]
  · show (selectIdx (boolDiff (aboveSeries st.ma_fast st.ma_slow)) lookback (-1)).getLast? = none
    rw [hd1]
    rfl
  · show (selectIdx (boolDiff (aboveSeries st.ma_slow st.ma_long)) lookback 1).getLast? = _
    rw [hg2]
  · show (selectIdx (boolDiff (aboveSeries st.ma_slow st.ma_long)) lookback (-1)).getLast? = none
    rw [hd2]
    rfl
  · intro i hu hd
    constructor
    · show (selectIdx (boolDiff (aboveSeries st.ma_fast st.ma_slow)) lookback 1).getLast? = some i
      rw [hg1, flip_eq_up_of_down_nil _ _ hd, hu]
      rfl
    · show (selectIdx (boolDiff (aboveSeries st.ma_fast st.ma_slow)) lookback (-1)).getLast? = none
      rw [hd1]
      rfl

/-- Concrete instantiation of `c7_amended_cross_history` on `stC7`. -/
theorem c7_witness :
    (MACross.get_cross_history stC7 10).1.last_golden_cross
        = (flipTransitions (aboveSeries stC7.ma_fast stC7.ma_slow) 10).getLast? ∧
    (MACross.get_cross_history stC7 10).1.last_death_cross = none :=
  ⟨(c7_amended_cross_history stC7 10 (by decide)).1.1,
   (c7_amended_cross_history stC7 10 (by decide)).1.2.1⟩


/-! ## C8: recent fractal sequence and dominance -/

/-- The recent-fractal sequence as the claim describes the scan: starting
from the bar before the most recent one and walking back to the earliest
row. -/
def recentFractalSequenceSpec (st : WilliamsFractalsState) : List String :=
  padTokens (collectTokens (st.df.getCol "fractal_up") (st.df.getCol "fractal_down")
    (scanIdxSpec st.df.nrows))

theorem find?_map_replace (l : List (String × List (Option ℚ))) (k : String) (v : List (Option ℚ))
    (h : l.any (fun p => p.1 = k) = true) :
    (l.map fun p => if p.1 = k then (k, v) else p).find? (fun p => p.1 = k) = some (k, v) := by
  induction l with
  | nil => simp at h
  | cons p t ih =>
      by_cases hp : p.1 = k
      · simp [List.find?, hp]
      · have ht : t.any (fun p => p.1 = k) = true := by
          simpa [List.any_cons, hp] using h
        simp [List.find?, hp, ih ht]

theorem find?_append_single (l : List (String × List (Option ℚ))) (k : String) (v : List (Option ℚ))
    (h : l.any (fun p => p.1 = k) = false) :
    (l ++ [(k, v)]).find? (fun p => p.1 = k) = some (k, v) := by
  induction l with
  | nil => simp [List.find?]
  | cons p t ih =>
      have hp : ¬ p.1 = k := by
        intro hc
        simp [List.any_cons, hc] at h
      have ht : t.any (fun p => p.1 = k) = false := by
        simpa [List.any_cons, hp] using h
      simp [List.find?, hp, ih ht]

/-- Reading back a freshly assigned column. -/
theorem getCol_setCol (df : DataFrame) (k : String) (v : List (Option ℚ)) :
    (df.setCol k v).getCol k = v := by
  unfold DataFrame.setCol DataFrame.getCol
  by_cases h : df.extra.any (fun p => p.1 = k) = true
  · simp only [h, if_true, find?_map_replace df.extra k v h]
    rfl
  · have h' : df.extra.any (fun p => p.1 = k) = false := by
      cases hh : df.extra.any (fun p => p.1 = k)
      · rfl
      · exact absurd hh h
    simp only [h', Bool.false_eq_true, if_false, find?_append_single df.extra k v h']
    rfl

theorem find?_map_replace_ne (l : List (String × List (Option ℚ))) (k k' : String)
    (v : List (Option ℚ)) (h : k' ≠ k) :
    (l.map fun p => if p.1 = k then (k, v) else p).find? (fun p => p.1 = k')
      = l.find? (fun p => p.1 = k') := by
  induction l with
  | nil => rfl
  | cons p t ih =>
      simp only [List.map_cons]
      by_cases hq : p.1 = k'
      · have hp : ¬ p.1 = k := by rw [hq]; exact h
        rw [if_neg hp]
        rw [List.find?_cons_of_pos _ (by simpa using hq),
            List.find?_cons_of_pos _ (by simpa using hq)]
      · by_cases hp : p.1 = k
        · rw [if_pos hp]
          rw [List.find?_cons_of_neg _ (by
                simp only [decide_eq_true_eq]
                exact fun hc => h hc.symm),
              List.find?_cons_of_neg _ (by simpa using hq)]
          exact ih
        · rw [if_neg hp]
          rw [List.find?_cons_of_neg _ (by simpa using hq),
              List.find?_cons_of_neg _ (by simpa using hq)]
          exact ih

/-- Assigning one column leaves the others readable unchanged. -/
theorem getCol_setCol_ne (df : DataFrame) (k k' : String) (v : List (Option ℚ)) (h : k' ≠ k) :
    (df.setCol k v).getCol k' = df.getCol k' := by
  unfold DataFrame.setCol DataFrame.getCol
  by_cases hany : df.extra.any (fun p => p.1 = k) = true
  · simp only [hany, if_true, find?_map_replace_ne df.extra k k' v h]
  · have h' : df.extra.any (fun p => p.1 = k) = false := by
      cases hh : df.extra.any (fun p => p.1 = k)
      · rfl
      · exact absurd hh hany
    simp only [h', Bool.false_eq_true, if_false]
    rw [List.find?_append]
    have hsing : [(k, v)].find? (fun p => p.1 = k') = none := by
      rw [List.find?_cons_of_neg _ (by
        simp only [decide_eq_true_eq]
        exact fun hc => h hc.symm)]
      rfl
    rw [hsing]
    cases df.extra.find? (fun p => p.1 = k') <;> rfl

theorem windowC_left_lt (xs : List (Option ℚ)) {p : ℕ} (hp : 1 ≤ p) :
    (windowC xs (2 * p + 1) 0).length < 2 * p + 1 := by
  simp [windowC, List.length_drop, List.length_take]
  omega

theorem windowC_right_lt (xs : List (Option ℚ)) {p : ℕ} (hp : 1 ≤ p) :
    (windowC xs (2 * p + 1) (xs.length - 1)).length < 2 * p + 1 := by
  simp [windowC, List.length_drop, List.length_take]
  omega

theorem fractalUpCol_getD_left (high : List ℚ) {p : ℕ} (hp : 1 ≤ p) :
    (fractalUpCol high (2 * p + 1)).getD 0 none = none := by
  unfold fractalUpCol
  rcases Nat.eq_zero_or_pos high.length with h0 | hpos
  · rw [getD_range_map_oob _ _ (by omega)]
  · rw [getD_range_map _ _ hpos]
    unfold rollingMaxC
    rw [getD_range_map _ _ (by simpa using hpos)]
    rw [aggMax_of_lt (lt_of_le_of_lt (List.length_filterMap_le _ _)
      (windowC_left_lt (high.map some) hp))]

theorem fractalDownCol_getD_left (low : List ℚ) {p : ℕ} (hp : 1 ≤ p) :
    (fractalDownCol low (2 * p + 1)).getD 0 none = none := by
  unfold fractalDownCol
  rcases Nat.eq_zero_or_pos low.length with h0 | hpos
  · rw [getD_range_map_oob _ _ (by omega)]
  · rw [getD_range_map _ _ hpos]
    unfold rollingMinC
    rw [getD_range_map _ _ (by simpa using hpos)]
    rw [aggMin_of_lt (lt_of_le_of_lt (List.length_filterMap_le _ _)
      (windowC_left_lt (low.map some) hp))]

theorem fractalUpCol_getD_right (high : List ℚ) {p : ℕ} (hp : 1 ≤ p) :
    (fractalUpCol high (2 * p + 1)).getD (high.length - 1) none = none := by
  unfold fractalUpCol
  rcases Nat.eq_zero_or_pos high.length with h0 | hpos
  · rw [getD_range_map_oob _ _ (by omega)]
  · rw [getD_range_map _ _ (by omega)]
    unfold rollingMaxC
    rw [getD_range_map _ _ (by simp; omega)]
    have hlen : (high.map some).length - 1 = high.length - 1 := by simp
    rw [aggMax_of_lt (lt_of_le_of_lt (List.length_filterMap_le _ _)
      (by rw [← hlen]; exact windowC_right_lt (high.map some) hp))]

theorem fractalDownCol_getD_right (low : List ℚ) {p : ℕ} (hp : 1 ≤ p) :
    (fractalDownCol low (2 * p + 1)).getD (low.length - 1) none = none := by
  unfold fractalDownCol
  rcases Nat.eq_zero_or_pos low.length with h0 | hpos
  · rw [getD_range_map_oob _ _ (by omega)]
  · rw [getD_range_map _ _ (by omega)]
    unfold rollingMinC
    rw [getD_range_map _ _ (by simp; omega)]
    have hlen : (low.map some).length - 1 = low.length - 1 := by simp
    rw [aggMin_of_lt (lt_of_le_of_lt (List.length_filterMap_le _ _)
      (by rw [← hlen]; exact windowC_right_lt (low.map some) hp))]

/-- The source scan (positions `n-1 … 1`) and the claimed scan
(positions `n-2 … 0`) collect the same tokens whenever the first and last
rows carry no fractal flag. -/
theorem scanIdx_filterMap_eq (up down : List (Option ℚ)) (n : ℕ)
    (h0 : fractalToken up down 0 = none)
    (hlast : fractalToken up down (n - 1) = none) :
    (scanIdxSource n).filterMap (fractalToken up down)
      = (scanIdxSpec n).filterMap (fractalToken up down) := by
  match n with
  | 0 => rfl
  | 1 => rfl
  | (m + 2) =>
      have hsrc : scanIdxSource (m + 2) = (m + 1) :: (List.range' 1 m).reverse := by
        unfold scanIdxSource
        rw [show m + 2 - 1 = m + 1 from rfl]
        rw [List.range'_1_concat 1 m]
        simp [List.reverse_append]
        omega
      have hspec : scanIdxSpec (m + 2) = (List.range' 1 m).reverse ++ [0] := by
        unfold scanIdxSpec
        rw [show m + 2 - 1 = m + 1 from rfl]
        rw [show List.range' 0 (m + 1) = 0 :: List.range' 1 m by
          simpa using List.range'_succ 0 m 1]
        simp
      have hl : fractalToken up down (m + 1) = none := hlast
      rw [hsrc, hspec]
      simp [List.filterMap_cons, List.filterMap_append, hl, h0]

theorem length_collectTokens_le (up down : List (Option ℚ)) (idxs : List ℕ) :
    (collectTokens up down idxs).length ≤ 10 := by
  simp [collectTokens, List.length_take]

theorem length_padTokens {t : List String} (h : t.length ≤ 10) : (padTokens t).length = 10 := by
  simp [padTokens]
  omega

theorem dominance_trichotomy (tokens : List String) :
    (dominanceOf tokens = "UP fractals dominate recent price action"
        ↔ tokens.count "down" < tokens.count "up") ∧
    (dominanceOf tokens = "DOWN fractals dominate recent price action"
        ↔ tokens.count "up" < tokens.count "down") ∧
    (dominanceOf tokens = "No clear dominance in recent fractals"
        ↔ tokens.count "up" = tokens.count "down") := by
  simp only [dominanceOf]
  rcases Nat.lt_trichotomy (tokens.count "up") (tokens.count "down") with h | h | h
  · rw [if_neg (by omega), if_pos h]
    exact ⟨iff_of_false (by decide) (by omega), iff_of_true rfl h,
      iff_of_false (by decide) (by omega)⟩
  · rw [if_neg (by omega), if_neg (by omega)]
    exact ⟨iff_of_false (by decide) (by omega), iff_of_false (by decide) (by omega),
      iff_of_true rfl h⟩
  · rw [if_pos h]
    exact ⟨iff_of_true rfl h, iff_of_false (by decide) (by omega),
      iff_of_false (by decide) (by omega)⟩

/-- C8: the recent-fractal sequence computed by the source scan (which
walks positions `n-1 … 1`) coincides with the sequence the claim
describes (walking `n-2 … 0`), because neither the most recent row nor
the earliest row can carry a fractal flag; the sequence has exactly 10
tokens, and the dominance verdict names a side exactly when its token
count is strictly greater than the other's. -/
theorem c8_fractal_sequence (df : DataFrame) (p : ℕ) (hp : 1 ≤ p)
    (hh : df.high.length = df.nrows) (hl : df.low.length = df.nrows) :
    recentFractalSequence (WilliamsFractals.calculate df p)
        = recentFractalSequenceSpec (WilliamsFractals.calculate df p) ∧
    (recentFractalSequence (WilliamsFractals.calculate df p)).length = 10 ∧
    (dominanceOf (recentFractalSequence (WilliamsFractals.calculate df p))
        = "UP fractals dominate recent price action"
      ↔ (recentFractalSequence (WilliamsFractals.calculate df p)).count "down"
          < (recentFractalSequence (WilliamsFractals.calculate df p)).count "up") ∧
    (dominanceOf (recentFractalSequence (WilliamsFractals.calculate df p))
        = "DOWN fractals dominate recent price action"
      ↔ (recentFractalSequence (WilliamsFractals.calculate df p)).count "up"
          < (recentFractalSequence (WilliamsFractals.calculate df p)).count "down") ∧
    (dominanceOf (recentFractalSequence (WilliamsFractals.calculate df p))
        = "No clear dominance in recent fractals"
      ↔ (recentFractalSequence (WilliamsFractals.calculate df p)).count "up"
          = (recentFractalSequence (WilliamsFractals.calculate df p)).count "down") := by
  have hup : (WilliamsFractals.calculate df p).df.getCol "fractal_up"
      = fractalUpCol df.high (2 * p + 1) := by
    show ((df.setCol "fractal_up" _).setCol "fractal_down" _).getCol "fractal_up" = _
    rw [getCol_setCol_ne _ _ _ _ (by decide), getCol_setCol]
  have hdown : (WilliamsFractals.calculate df p).df.getCol "fractal_down"
      = fractalDownCol df.low (2 * p + 1) := by
    show ((df.setCol "fractal_up" _).setCol "fractal_down" _).getCol "fractal_down" = _
    rw [getCol_setCol]
  have hn : (WilliamsFractals.calculate df p).df.nrows = df.nrows := rfl
  have h0 : fractalToken (fractalUpCol df.high (2 * p + 1)) (fractalDownCol df.low (2 * p + 1)) 0
      = none := by
    unfold fractalToken
    rw [fractalUpCol_getD_left df.high hp, fractalDownCol_getD_left df.low hp]
  have hlastT : fractalToken (fractalUpCol df.high (2 * p + 1)) (fractalDownCol df.low (2 * p + 1))
      (df.nrows - 1) = none := by
    unfold fractalToken
    have h1 : (fractalUpCol df.high (2 * p + 1)).getD (df.nrows - 1) none = none := by
      rw [← hh]; exact fractalUpCol_getD_right df.high hp
    have h2 : (fractalDownCol df.low (2 * p + 1)).getD (df.nrows - 1) none = none := by
      rw [← hl]; exact fractalDownCol_getD_right df.low hp
    rw [h1, h2]
  have hseq : recentFractalSequence (WilliamsFractals.calculate df p)
      = recentFractalSequenceSpec (WilliamsFractals.calculate df p) := by
    unfold recentFractalSequence recentFractalSequenceSpec collectTokens
    rw [hup, hdown, hn, scanIdx_filterMap_eq _ _ _ h0 hlastT]
  refine ⟨hseq, length_padTokens (length_collectTokens_le _ _ _), (dominance_trichotomy _).1,
    (dominance_trichotomy _).2.1, (dominance_trichotomy _).2.2⟩

/-- Concrete 8-bar frame used to instantiate `c8_fractal_sequence`. -/
def dfC8 : DataFrame := ⟨[1, 2, 3, 4, 5, 6, 7, 8], [1, 2, 3, 4, 5, 6, 7, 8],
  [1, 2, 9, 2, 1, 2, 3, 1], [0, 1, 2, -5, 0, 1, 2, 0], [1, 2, 3, 4, 5, 6, 7, 8],
  [0, 0, 0, 0, 0, 0, 0, 0], []⟩

/-- Concrete instantiation of `c8_fractal_sequence` on `dfC8`. -/
theorem c8_witness :
    recentFractalSequence (WilliamsFractals.calculate dfC8 2)
        = recentFractalSequenceSpec (WilliamsFractals.calculate dfC8 2) ∧
    (recentFractalSequence (WilliamsFractals.calculate dfC8 2)).length = 10 :=
  ⟨(c8_fractal_sequence dfC8 2 (by decide) (by decide) (by decide)).1,
   (c8_fractal_sequence dfC8 2 (by decide) (by decide) (by decide)).2.1⟩

/-! ## C1 and C4: RSI divergence -/

/-- A 30-bar strictly increasing close series. -/
def ascending30 : List ℚ := [1, 2, 3, 4, 5, 6, 7, 8, 9, 10, 11, 12, 13, 14, 15, 16, 17, 18,
  19, 20, 21, 22, 23, 24, 25, 26, 27, 28, 29, 30]

/-- C4: the default divergence scan distinguishes insufficient data from
absence of divergence: below 30 bars it returns the distinct no-result
marker `none`; at or above 30 bars, when fewer than 2 price peaks or
RSI peaks exist (and likewise for troughs), it returns a result with both
divergence flags false. -/
theorem c4_divergence_markers :
    (∀ closes : List ℚ, closes.length < 30 → RSI.divergenceDefault closes = none) ∧
    (∀ closes : List ℚ, 30 ≤ closes.length →
      ((pricePeaksOf closes).length < 2 ∨ (rsiPeaksOf closes).length < 2) →
      ((priceTroughsOf closes).length < 2 ∨ (rsiTroughsOf closes).length < 2) →
      RSI.divergenceDefault closes = some ⟨false, false, "No divergence detected"⟩) := by
  constructor
  · intro closes h
    unfold RSI.divergenceDefault RSI.get_divergence
    rw [if_pos h]
  · intro closes h hpk htr
    unfold pricePeaksOf rsiPeaksOf at hpk
    unfold priceTroughsOf rsiTroughsOf at htr
    unfold RSI.divergenceDefault RSI.get_divergence
    rw [if_neg (by omega)]
    have hb : bearishCheck (peakPoints (recentSlice (closes.map some) 30) 5)
        (peakPoints (recentSlice (RSI.smoothed_rsi closes 14 14) 30) 5) = false := by
      unfold bearishCheck
      rw [if_neg (by rintro ⟨h1, h2⟩; rcases hpk with hc | hc <;> omega)]
    have hbl : bullishCheck (troughPoints (recentSlice (closes.map some) 30) 5)
        (troughPoints (recentSlice (RSI.smoothed_rsi closes 14 14) 30) 5) = false := by
      unfold bullishCheck
      rw [if_neg (by rintro ⟨h1, h2⟩; rcases htr with hc | hc <;> omega)]
    rw [hb, hbl]
    rfl

/-- Concrete instantiation of `c4_divergence_markers`: a 3-bar series
yields the no-result marker; the strictly increasing 30-bar series (which
has no price peaks and no price troughs) yields the no-divergence record. -/
theorem c4_witness :
    RSI.divergenceDefault [1, 2, 3] = none ∧
    RSI.divergenceDefault ascending30 = some ⟨false, false, "No divergence detected"⟩ :=
  ⟨c4_divergence_markers.1 [1, 2, 3] (by decide),
   c4_divergence_markers.2 ascending30 (by decide) (Or.inl (by decide)) (Or.inl (by decide))⟩

/-! ## C1: the RSI peak lookup as the source executes it

`rsi.py` line 131 evaluates
`rsi_peaks[rsi_peaks.index.get_loc(last_price_peak, method='nearest')]`:
`get_loc` returns an ordinal position, while subscripting a Series with
an integer key on an integer-labeled index is label-based, so the
subscript looks the position up among the row labels. -/

/-- Ordinal position returned by `index.get_loc(t, method='nearest')` on
the ascending label index of a point series: the position of the label at
least distance from `t`, ties resolved to the larger label. -/
def nearestPos (points : List (ℕ × ℚ)) (t : ℕ) : Option ℕ :=
  (points.enum.foldl (fun acc ip =>
    match acc with
    | none => some ip
    | some jq =>
        if max ip.2.1 t - min ip.2.1 t ≤ max jq.2.1 t - min jq.2.1 t then some ip
        else some jq) none).map Prod.fst

/-- `Series.__getitem__` with an integer key on an integer-labeled series
(the behaviour of `rsi_peaks[key]` in the source's pandas): a label-based
lookup returning the value stored at label `key`, or raising `KeyError`
when no label equals the key. -/
def seriesGetItemInt (points : List (ℕ × ℚ)) (key : ℕ) : Except String ℚ :=
  match points.find? (fun q => q.1 = key) with
  | some q => .ok q.2
  | none => .error "KeyError"

/-- Attach the original frame row labels to the points of a trailing
slice: pandas keeps the labels `n - lookback … n - 1` on
`iloc[-lookback:]`, so each slice position is shifted by the slice
offset. -/
def labeledPoints (offset : ℕ) (pts : List (ℕ × ℚ)) : List (ℕ × ℚ) :=
  pts.map fun q => (offset + q.1, q.2)

/-- Bearish branch of `RSI.get_divergence` as the source executes it:
once both length guards pass, the two most recent price-peak labels are
taken and the label-based subscript of the positional `get_loc` result is
evaluated for each RSI peak; only then are the two strict comparisons
made.  The wildcard fallbacks are unreachable: the guard keeps the peak
lists nonempty. -/
def bearishStepSrc (price_peaks rsi_peaks : List (ℕ × ℚ)) : Except String Bool :=
  if 2 ≤ price_peaks.length ∧ 2 ≤ rsi_peaks.length then
    match lastTwo price_peaks with
    | some (lastP, prevP) =>
        match nearestPos rsi_peaks lastP.1, nearestPos rsi_peaks prevP.1 with
        | some posL, some posP =>
            match seriesGetItemInt rsi_peaks posL with
            | .error e => .error e
            | .ok lastR =>
                match seriesGetItemInt rsi_peaks posP with
                | .error e => .error e
                | .ok prevR => .ok (decide (prevP.2 < lastP.2) && decide (lastR < prevR))
        | _, _ => .ok false
    | none => .ok false
  else .ok false

/-- Bullish branch of `RSI.get_divergence` as the source executes it, on
the trough series. -/
def bullishStepSrc (price_troughs rsi_troughs : List (ℕ × ℚ)) : Except String Bool :=
  if 2 ≤ price_troughs.length ∧ 2 ≤ rsi_troughs.length then
    match lastTwo price_troughs with
    | some (lastP, prevP) =>
        match nearestPos rsi_troughs lastP.1, nearestPos rsi_troughs prevP.1 with
        | some posL, some posP =>
            match seriesGetItemInt rsi_troughs posL with
            | .error e => .error e
            | .ok lastR =>
                match seriesGetItemInt rsi_troughs posP with
                | .error e => .error e
                | .ok prevR => .ok (decide (lastP.2 < prevP.2) && decide (prevR < lastR))
        | _, _ => .ok false
    | none => .ok false
  else .ok false

/-- `RSI.get_divergence` as the source executes, including the raising
lookups: `.ok none` models the early `return None` below `lookback`,
`.ok (some d)` a returned dictionary, and `.error` a raised exception.
Points carry the original frame row labels. -/
def RSI.get_divergence_src (closes : List ℚ) (smoothed : List (Option ℚ))
    (lookback peak_window : ℕ) : Except String (Option Divergence) :=
  if closes.length < lookback then .ok none
  else
    match bearishStepSrc
        (labeledPoints (windowStart closes.length lookback)
          (peakPoints (recentSlice (closes.map some) lookback) peak_window))
        (labeledPoints (windowStart smoothed.length lookback)
          (peakPoints (recentSlice smoothed lookback) peak_window)) with
    | .error e => .error e
    | .ok true =>
        .ok (some ⟨false, true,
          "Bearish divergence: Price making higher highs, RSI making lower highs"⟩)
    | .ok false =>
        match bullishStepSrc
            (labeledPoints (windowStart closes.length lookback)
              (troughPoints (recentSlice (closes.map some) lookback) peak_window))
            (labeledPoints (windowStart smoothed.length lookback)
              (troughPoints (recentSlice smoothed lookback) peak_window)) with
        | .error e => .error e
        | .ok true =>
            .ok (some ⟨true, false,
              "Bullish divergence: Price making lower lows, RSI making higher lows"⟩)
        | .ok false => .ok (some ⟨false, false, "No divergence detected"⟩)

/-- `rsi.get_divergence()` at the defaults, as the source executes it. -/
def RSI.divergenceDefaultSrc (closes : List ℚ) : Except String (Option Divergence) :=
  RSI.get_divergence_src closes (RSI.smoothed_rsi closes 14 14) 30 5

/-- On the paths that never reach the peak lookup — series shorter than
`lookback`, or both branch guards failing — the source model agrees with
the returned-value model `RSI.get_divergence`. -/
theorem get_divergence_src_agrees (closes : List ℚ) (smoothed : List (Option ℚ))
    (lookback w : ℕ) :
    (closes.length < lookback → RSI.get_divergence_src closes smoothed lookback w = .ok none) ∧
    (lookback ≤ closes.length →
      ((peakPoints (recentSlice (closes.map some) lookback) w).length < 2 ∨
       (peakPoints (recentSlice smoothed lookback) w).length < 2) →
      ((troughPoints (recentSlice (closes.map some) lookback) w).length < 2 ∨
       (troughPoints (recentSlice smoothed lookback) w).length < 2) →
      RSI.get_divergence_src closes smoothed lookback w
        = .ok (some ⟨false, false, "No divergence detected"⟩)) := by
  constructor
  · intro h
    unfold RSI.get_divergence_src
    rw [if_pos h]
  · intro h hpk htr
    unfold RSI.get_divergence_src
    rw [if_neg (by omega)]
    have hb : bearishStepSrc
        (labeledPoints (windowStart closes.length lookback)
          (peakPoints (recentSlice (closes.map some) lookback) w))
        (labeledPoints (windowStart smoothed.length lookback)
          (peakPoints (recentSlice smoothed lookback) w)) = .ok false := by
      unfold bearishStepSrc
      rw [if_neg (by
        rintro ⟨h1, h2⟩
        unfold labeledPoints at h1 h2
        rw [List.length_map] at h1 h2
        rcases hpk with hc | hc <;> omega)]
    have hbl : bullishStepSrc
        (labeledPoints (windowStart closes.length lookback)
          (troughPoints (recentSlice (closes.map some) lookback) w))
        (labeledPoints (windowStart smoothed.length lookback)
          (troughPoints (recentSlice smoothed lookback) w)) = .ok false := by
      unfold bullishStepSrc
      rw [if_neg (by
        rintro ⟨h1, h2⟩
        unfold labeledPoints at h1 h2
        rw [List.length_map] at h1 h2
        rcases htr with hc | hc <;> omega)]
    rw [hb, hbl]

/-- A 30-bar close series with two isolated price humps among zero
plateaus; its trailing-30 slice has price peaks at positions 3 and 23
(and on the plateaus). -/
def closesC1 : List ℚ := [0, 0, 0, 10, 0, 0, 0, 0, 0, 0, 0, 0, 0, 0, 0, 0, 0, 0, 0, 0,
  0, 0, 0, 12, 0, 0, 0, 0, 0, 0]

/-- A smoothed-RSI series of the shape the SMA smoothing pass produces —
missing over the first 14 positions, defined afterwards — whose peaks sit
at positions 16 through 27. -/
def smoothedC1 : List (Option ℚ) := List.replicate 14 none ++ List.replicate 16 (some 50)

/-- C1: once both peak guards pass, the divergence scan raises instead of
reporting a flag.  `rsi_peaks[rsi_peaks.index.get_loc(label,
method='nearest')]` subscripts the integer-labeled peak series with an
ordinal position, and the label-based lookup raises `KeyError` whenever
that position is not itself a label (the `method=` keyword itself raises
`TypeError` under pandas ≥ 2.0).  On `closesC1`/`smoothedC1` both series
have at least 2 peaks — the claim's domain — and the scan raises. -/
theorem c1_lookup_keyerror :
    RSI.get_divergence_src closesC1 smoothedC1 30 5 = .error "KeyError" ∧
    2 ≤ (peakPoints (recentSlice (closesC1.map some) 30) 5).length ∧
    2 ≤ (peakPoints (recentSlice smoothedC1 30) 5).length := by
  refine ⟨by rfl, by decide, by decide⟩

/-- The two most recent points of a list of at least two points. -/
theorem lastTwo_eq {l : List (ℕ × ℚ)} (h : 2 ≤ l.length) :
    ∃ a b, lastTwo l = some (a, b) ∧ l.getLast? = some a ∧ l.dropLast.getLast? = some b := by
  obtain ⟨a, ha⟩ := getLast?_of_pos l (by omega)
  obtain ⟨b, hb⟩ := getLast?_of_pos l.dropLast (by rw [List.length_dropLast]; omega)
  refine ⟨a, b, ?_, ha, hb⟩
  unfold lastTwo
  rw [ha, hb]

/-- The nearest-position fold only ever returns its accumulator or an
element of the list. -/
theorem foldl_nearestPos_pick (t : ℕ) :
    ∀ (l : List (ℕ × (ℕ × ℚ))) (acc : Option (ℕ × (ℕ × ℚ))) (r : ℕ × (ℕ × ℚ)),
      l.foldl (fun acc ip =>
        match acc with
        | none => some ip
        | some jq =>
            if max ip.2.1 t - min ip.2.1 t ≤ max jq.2.1 t - min jq.2.1 t then some ip
            else some jq) acc = some r →
      acc = some r ∨ r ∈ l := by
  intro l
  induction l with
  | nil => intro acc r h; exact Or.inl h
  | cons p tl ih =>
      intro acc r h
      rw [List.foldl_cons] at h
      rcases ih _ r h with hstep | hmem
      · cases acc with
        | none =>
            right
            have hp : p = r := by simpa using hstep
            rw [← hp]
            exact List.mem_cons_self p tl
        | some q =>
            by_cases hc : max p.2.1 t - min p.2.1 t ≤ max q.2.1 t - min q.2.1 t
            · right
              have hstep' : (if max p.2.1 t - min p.2.1 t ≤ max q.2.1 t - min q.2.1 t
                  then some p else some q) = some r := hstep
              rw [if_pos hc] at hstep'
              have hp : p = r := by simpa using hstep'
              rw [← hp]
              exact List.mem_cons_self p tl
            · left
              have hstep' : (if max p.2.1 t - min p.2.1 t ≤ max q.2.1 t - min q.2.1 t
                  then some p else some q) = some r := hstep
              rw [if_neg hc] at hstep'
              exact hstep'
      · exact Or.inr (List.mem_cons_of_mem p hmem)

/-- The nearest-position fold is defined once seeded. -/
theorem foldl_nearestPos_some (t : ℕ) :
    ∀ (l : List (ℕ × (ℕ × ℚ))) (q : ℕ × (ℕ × ℚ)),
      ∃ r, l.foldl (fun acc ip =>
        match acc with
        | none => some ip
        | some jq =>
            if max ip.2.1 t - min ip.2.1 t ≤ max jq.2.1 t - min jq.2.1 t then some ip
            else some jq) (some q) = some r := by
  intro l
  induction l with
  | nil => exact fun q => ⟨q, rfl⟩
  | cons p tl ih =>
      intro q
      show ∃ r, tl.foldl _
        (if max p.2.1 t - min p.2.1 t ≤ max q.2.1 t - min q.2.1 t then some p else some q)
          = some r
      by_cases hc : max p.2.1 t - min p.2.1 t ≤ max q.2.1 t - min q.2.1 t
      · rw [if_pos hc]; exact ih p
      · rw [if_neg hc]; exact ih q

/-- `get_loc(..., 'nearest')` is defined on a nonempty index. -/
theorem nearestPos_isSome (l : List (ℕ × ℚ)) (t : ℕ) (h : l ≠ []) :
    ∃ pos, nearestPos l t = some pos := by
  unfold nearestPos
  cases l with
  | nil => exact absurd rfl h
  | cons a tl =>
      obtain ⟨r, hr⟩ := foldl_nearestPos_some t (List.enumFrom 1 tl) (0, a)
      refine ⟨r.1, ?_⟩
      show (((0, a) :: List.enumFrom 1 tl).foldl _ none).map Prod.fst = some r.1
      rw [List.foldl_cons, hr]
      rfl

/-- The position returned by the nearest lookup is an ordinal into the
point list. -/
theorem nearestPos_lt {l : List (ℕ × ℚ)} {t pos : ℕ} (h : nearestPos l t = some pos) :
    pos < l.length := by
  unfold nearestPos at h
  cases hfold : l.enum.foldl (fun acc ip =>
      match acc with
      | none => some ip
      | some jq =>
          if max ip.2.1 t - min ip.2.1 t ≤ max jq.2.1 t - min jq.2.1 t then some ip
          else some jq) none with
  | none => rw [hfold] at h; cases h
  | some r =>
      rw [hfold] at h
      have hpos : r.1 = pos := by simpa using h
      rcases foldl_nearestPos_pick t l.enum none r hfold with hacc | hmem
      · cases hacc
      · have hb := (List.mem_enumFrom hmem).2.1
        omega

/-- Whenever both peak guards pass and every peak label is at least the
peak count — as with the original frame labels of any run whose slice
offset is at least the peak count — the bearish lookup raises. -/
theorem bearishStepSrc_raises (pp rp : List (ℕ × ℚ)) (hpp : 2 ≤ pp.length)
    (hrp : 2 ≤ rp.length) (hlab : ∀ q ∈ rp, rp.length ≤ q.1) :
    bearishStepSrc pp rp = .error "KeyError" := by
  unfold bearishStepSrc
  rw [if_pos ⟨hpp, hrp⟩]
  obtain ⟨a, b, hlt, -, -⟩ := lastTwo_eq hpp
  have hrne : rp ≠ [] := by
    intro hc; rw [hc] at hrp; simp at hrp
  obtain ⟨posL, hposL⟩ := nearestPos_isSome rp a.1 hrne
  obtain ⟨posP, hposP⟩ := nearestPos_isSome rp b.1 hrne
  have hfind : seriesGetItemInt rp posL = .error "KeyError" := by
    unfold seriesGetItemInt
    rw [List.find?_eq_none.mpr ?_]
    intro q hq
    simp only [decide_eq_true_eq]
    intro he
    have h1 := hlab q hq
    have h2 := nearestPos_lt hposL
    omega
  rw [hlt]
  simp only [hposL, hposP, hfind]

/-- At the engine level: whenever the trailing slice has at least two
price peaks and two RSI peaks, and the slice offset is at least the RSI
peak count (true of every `main.py` run, where the offset is
`len(df) - 30`), the divergence scan raises instead of returning. -/
theorem get_divergence_src_raises (closes : List ℚ) (smoothed : List (Option ℚ))
    (lookback w : ℕ) (h : lookback ≤ closes.length)
    (hpp : 2 ≤ (peakPoints (recentSlice (closes.map some) lookback) w).length)
    (hrp : 2 ≤ (peakPoints (recentSlice smoothed lookback) w).length)
    (hoff : (peakPoints (recentSlice smoothed lookback) w).length
        ≤ windowStart smoothed.length lookback) :
    RSI.get_divergence_src closes smoothed lookback w = .error "KeyError" := by
  unfold RSI.get_divergence_src
  rw [if_neg (by omega)]
  have hb := bearishStepSrc_raises
    (labeledPoints (windowStart closes.length lookback)
      (peakPoints (recentSlice (closes.map some) lookback) w))
    (labeledPoints (windowStart smoothed.length lookback)
      (peakPoints (recentSlice smoothed lookback) w))
    (by unfold labeledPoints; rw [List.length_map]; exact hpp)
    (by unfold labeledPoints; rw [List.length_map]; exact hrp)
    (by
      intro q hq
      unfold labeledPoints at hq
      rw [List.mem_map] at hq
      obtain ⟨p, hp, hpq⟩ := hq
      rw [labeledPoints, List.length_map]
      rw [← hpq]
      show (peakPoints (recentSlice smoothed lookback) w).length
          ≤ windowStart smoothed.length lookback + p.1
      omega)
  rw [hb]
